import Mathlib

/-! Trading journal: the transactions route.

A shallow embedding of `src/app/api/transactions/route.js`: the handler `POST`
(lines 474-657), the handler `GET` (lines 134-472) with `getAccountFeesTotal`
and `calculateProfitStats`, and the values they handle.

* Request bodies are duck-typed JSON: every field is a `JsVal`, tested by the
  handler only for JavaScript truthiness and strict equality.
* The database is explicit state (`World`): the user table, the stock-account
  table, the transaction table, the lot ledger owned by the cost-basis engine,
  and the in-process `transactionCache`.
* The cost-basis engine (`processBuyTransaction`, `processSellTransaction`)
  lives outside the route file; it is a parameter (`Engine`) acting on the
  ledger, and every call the handler makes is recorded in `Run.engineCalls`.
  For the statements about the engine itself, `ledgerEngine` follows the
  specification's description of it.
* Any Prisma call may reject (connection loss, constraint or argument
  validation failure): `Env.fault` says which ones do in a given run of `POST`;
  for `GET` the database's answers are the parameter `TxDb`.
* Numbers are rationals. The arithmetic of `calculateProfitStats` is that of
  JavaScript's numbers: each `+`, `-`, `*` and `/` gives the exact result
  rounded to the nearest double (`toDouble`), and `Math.round` is `mathRound`.
  The numbers a transaction list holds are taken to be doubles already. The
  engine of the specification computes exactly.
-/

namespace TradingJournal

/-! ## Values -/

/-- A JSON-decoded JavaScript value. `obj` stands for any array or object;
`undefined` is a field absent from the body. Numbers are the finite values a
JSON document can carry. -/
inductive JsVal where
  | undefined
  | null
  | bool (b : Bool)
  | num (q : ℚ)
  | str (s : String)
  | obj
  deriving DecidableEq

/-- JavaScript truthiness: what `!v` negates. -/
def JsVal.truthy : JsVal → Bool
  | .undefined => false
  | .null => false
  | .bool b => b
  | .num q => decide (q ≠ 0)
  | .str s => decide (s ≠ "")
  | .obj => true

/-- A destructuring default (`{ fee = 0 } = body`): used only when the field is
`undefined`, so an explicit `null` is kept. -/
def JsVal.orDefault (v d : JsVal) : JsVal :=
  match v with
  | .undefined => d
  | other => other

/-- The fields the handler destructures from the request body (line 497). -/
structure Body where
  ticker : JsVal
  type : JsVal
  quantity : JsVal
  price : JsVal
  transactionDate : JsVal
  fee : JsVal
  taxRate : JsVal
  notes : JsVal
  stockAccountId : JsVal
  deriving DecidableEq

/-- A POST request: the session's user id (`none` when `getServerSession`
returns nothing) and the decoded body (`none` when `request.json()` rejects or
yields `null`, so that the destructuring throws). -/
structure Request where
  session : Option String
  body : Option Body
  deriving DecidableEq

/-! ## Database state -/

/-- A row of the stock-account table. -/
structure StockAccount where
  id : String
  name : String
  brokerName : Option String
  accountNumber : Option String
  description : Option String
  userId : String
  createdAt : Nat
  deriving DecidableEq

/-- A row of the transaction table, as written by `prisma.transaction.create`
(lines 601-615). `transactionDate` holds the value handed to `new Date(...)` on
line 609; the date made from it is not computed. -/
structure TxRow where
  userId : String
  stockAccountId : JsVal
  ticker : String
  type : JsVal
  quantity : JsVal
  price : JsVal
  transactionDate : JsVal
  fee : JsVal
  taxRate : JsVal
  calculatedPl : JsVal
  notes : JsVal
  deriving DecidableEq

/-- The state a request runs against: database tables, the engine's lot ledger
(of type `L`) and the module-level `transactionCache` (entries of type `C`). -/
structure World (L C : Type) where
  users : List String
  stockAccounts : List StockAccount
  transactions : List TxRow
  ledger : L
  cache : List (String × C)
  deriving DecidableEq

/-- The Prisma calls made by `POST`, in program order. -/
inductive DbOp where
  | userFindUnique
  | accountFindMany
  | accountCreate
  | accountFindFirst
  | transactionCreate
  | accountLookup
  deriving DecidableEq

/-- What a run takes from outside the program: which Prisma calls reject, the
database clock used for `createdAt`, `String.prototype.toUpperCase`, and how
Prisma reads an object given as an `id` condition: as a filter such as
`{ not: 'zzz' }` it accepts the ids `objectIdFilter` accepts (no id when the
object is not a filter). -/
structure Env where
  fault : DbOp → Bool
  now : Nat
  upper : String → String
  objectIdFilter : String → Bool

/-! ## The cost-basis engine, as the handler sees it -/

/-- Arguments of `processBuyTransaction` (lines 566-574). -/
structure BuyArgs where
  userId : String
  stockAccountId : JsVal
  ticker : JsVal
  quantity : JsVal
  price : JsVal
  fee : JsVal
  transactionDate : JsVal
  deriving DecidableEq

/-- Arguments of `processSellTransaction` (lines 580-589). -/
structure SellArgs where
  userId : String
  stockAccountId : JsVal
  ticker : JsVal
  quantity : JsVal
  price : JsVal
  fee : JsVal
  taxRate : JsVal
  transactionDate : JsVal
  deriving DecidableEq

/-- The part of a sell result the handler reads (`sellResult.profitOrLoss`). -/
structure SellResult where
  profitOrLoss : JsVal
  deriving DecidableEq

/-- An awaited engine call either resolves with a value or rejects with an
error carrying a message; in both cases it leaves a ledger behind. -/
inductive EngineOut (L R : Type) where
  | returned (r : R) (ledger : L)
  | threw (message : String) (ledger : L)
  deriving DecidableEq

/-- The engine imported on line 5, acting on the ledger. -/
structure Engine (L : Type) where
  processBuyTransaction : L → BuyArgs → EngineOut L JsVal
  processSellTransaction : L → SellArgs → EngineOut L SellResult

/-- An engine call made by the handler. -/
inductive EngineCall where
  | buy (args : BuyArgs)
  | sell (args : SellArgs)
  deriving DecidableEq

/-- The account id an engine call was given. -/
def EngineCall.stockAccountId : EngineCall → JsVal
  | .buy args => args.stockAccountId
  | .sell args => args.stockAccountId

/-! ## Responses -/

/-- What the handler resolves to: a `{ message }` response with a status, the
201 response carrying the created row and its account, or a rejection (the
outer `catch` reads `session`, which is declared inside the `try` block and is
not in scope there, so the catch block itself throws). -/
inductive Outcome where
  | json (status : Nat) (message : String)
  | created (row : TxRow) (stockAccount : Option StockAccount)
  | rejected
  deriving DecidableEq

/-- The HTTP status the handler itself sets, if it responds. -/
def Outcome.status : Outcome → Option Nat
  | .json s _ => some s
  | .created _ _ => some 201
  | .rejected => none

/-- The result of one request: the response, the state left behind and the
engine calls made. -/
structure Run (L C : Type) where
  outcome : Outcome
  world : World L C
  engineCalls : List EngineCall
  deriving DecidableEq

/-! ## Account resolution (lines 507-557) -/

/-- Name of the automatically created account. -/
def defaultAccountName : String := "Tài khoản mặc định"

/-- Result of account resolution. -/
inductive Resolved (L C : Type) where
  | ok (w : World L C) (finalStockAccountId : JsVal)
  | invalid
  | threw
  deriving DecidableEq

/-- The accounts of user `uid`, oldest first
(`findMany({ where: { userId }, orderBy: { createdAt: 'asc' } })`). -/
def accountsOf (accounts : List StockAccount) (uid : String) : List StockAccount :=
  (accounts.filter (fun a => a.userId = uid)).insertionSort (fun a b => a.createdAt ≤ b.createdAt)

/-- The default account created on line 525. -/
def newDefaultAccount (env : Env) (uid : String) : StockAccount :=
  { id := "default-" ++ uid
    name := defaultAccountName
    brokerName := none
    accountNumber := none
    description := some "Tài khoản mặc định được tạo tự động"
    userId := uid
    createdAt := env.now }

/-- The condition `id: value` of a Prisma `where` clause, with the raw body
value: a string is compared with the id, an object is read as a filter. -/
def idMatches (env : Env) (value : JsVal) (id : String) : Bool :=
  match value with
  | .str s => decide (id = s)
  | .obj => env.objectIdFilter id
  | _ => false

/-- Lines 507-557: pick (or create) the account when none is supplied, check
ownership when one is. The supplied value goes to `findFirst` as it came in
the body, and is the account id used afterwards. -/
def resolveAccount {L C : Type} (env : Env) (w : World L C) (uid : String) (stockAccountId : JsVal) :
    Resolved L C :=
  if !stockAccountId.truthy then
    if env.fault .accountFindMany then .threw
    else
      match accountsOf w.stockAccounts uid with
      | [] =>
        if env.fault .accountCreate then .threw
        else
          let defaultAccount := newDefaultAccount env uid
          .ok { w with stockAccounts := w.stockAccounts ++ [defaultAccount] } (.str defaultAccount.id)
      | first :: rest =>
        let defaultAccount :=
          ((first :: rest).find? (fun a => a.name = defaultAccountName)).getD first
        .ok w (.str defaultAccount.id)
  else
    if env.fault .accountFindFirst then .threw
    else
      match w.stockAccounts.find?
          (fun a => idMatches env stockAccountId a.id && decide (a.userId = uid)) with
      | none => .invalid
      | some _ => .ok w stockAccountId

/-! ## Persisting the row and answering (lines 600-639) -/

/-- The test `key.includes(id)` on cache keys (line 634). -/
def includes (key id : String) : Bool :=
  decide (id.toList <:+: key.toList)

/-- The lookup on line 618, `findFirst({ where: { id: stockAccountId } })`, with
the id as supplied in the body: an `undefined` id is no filter at all. -/
def lookupAccount (env : Env) (accounts : List StockAccount) (stockAccountId : JsVal) :
    Option StockAccount :=
  match stockAccountId with
  | .undefined => accounts.head?
  | other => accounts.find? (fun a => idMatches env other a.id)

/-- Lines 600-639: create the row, look its account up, clear the user's cache
entries, answer 201. A ticker that is not a string has no `toUpperCase`. -/
def persist {L C : Type} (env : Env) (w : World L C) (uid : String) (finalStockAccountId : JsVal)
    (body : Body) (fee taxRate calculatedPl : JsVal) (calls : List EngineCall) : Run L C :=
  match body.ticker with
  | .str t =>
    if env.fault .transactionCreate then ⟨.rejected, w, calls⟩
    else
      let transaction : TxRow :=
        { userId := uid
          stockAccountId := finalStockAccountId
          ticker := env.upper t
          type := body.type
          quantity := body.quantity
          price := body.price
          transactionDate := body.transactionDate
          fee := fee
          taxRate := taxRate
          calculatedPl := calculatedPl
          notes := body.notes }
      let w1 := { w with transactions := w.transactions ++ [transaction] }
      if env.fault .accountLookup then ⟨.rejected, w1, calls⟩
      else
        let stockAccount := lookupAccount env w1.stockAccounts body.stockAccountId
        let w2 := { w1 with cache := w1.cache.filter (fun e => !includes e.1 uid) }
        ⟨.created transaction stockAccount, w2, calls⟩
  | _ => ⟨.rejected, w, calls⟩

/-! ## The handler -/

/-- The required-field test of line 500. -/
def missingRequired (body : Body) : Bool :=
  !body.ticker.truthy || !body.type.truthy || !body.quantity.truthy || !body.price.truthy
    || !body.transactionDate.truthy

/-- The buy call of lines 566-574. -/
def buyArgs (uid : String) (finalStockAccountId : JsVal) (body : Body) : BuyArgs :=
  { userId := uid
    stockAccountId := finalStockAccountId
    ticker := body.ticker
    quantity := body.quantity
    price := body.price
    fee := body.fee.orDefault (.num 0)
    transactionDate := body.transactionDate }

/-- The sell call of lines 580-589. -/
def sellArgs (uid : String) (finalStockAccountId : JsVal) (body : Body) : SellArgs :=
  { userId := uid
    stockAccountId := finalStockAccountId
    ticker := body.ticker
    quantity := body.quantity
    price := body.price
    fee := body.fee.orDefault (.num 0)
    taxRate := body.taxRate.orDefault (.num 0)
    transactionDate := body.transactionDate }

/-- The handler `POST` (lines 475-657). -/
def POST {L C : Type} (env : Env) (engine : Engine L) (w : World L C) (req : Request) : Run L C :=
  match req.session with
  | none => ⟨.json 401 "Unauthorized", w, []⟩
  | some uid =>
    if env.fault .userFindUnique then ⟨.rejected, w, []⟩
    else if uid ∉ w.users then
      ⟨.json 404 "User not found in database. Please log out and log in again.", w, []⟩
    else
      match req.body with
      | none => ⟨.rejected, w, []⟩
      | some body =>
        let fee := body.fee.orDefault (.num 0)
        let taxRate := body.taxRate.orDefault (.num 0)
        if missingRequired body then
          ⟨.json 400
            "Missing required fields: ticker, type, quantity, price, and transactionDate are required",
            w, []⟩
        else
          match resolveAccount env w uid body.stockAccountId with
          | .threw => ⟨.rejected, w, []⟩
          | .invalid =>
            ⟨.json 400 "Invalid stock account or account does not belong to user", w, []⟩
          | .ok w1 finalStockAccountId =>
            if body.type = .str "BUY" then
              let args := buyArgs uid finalStockAccountId body
              match engine.processBuyTransaction w1.ledger args with
              | .threw m l =>
                ⟨.json 400 ("Error processing cost basis: " ++ m), { w1 with ledger := l },
                  [.buy args]⟩
              | .returned _ l =>
                persist env { w1 with ledger := l } uid finalStockAccountId body fee taxRate
                  (.num 0) [.buy args]
            else if body.type = .str "SELL" then
              let args := sellArgs uid finalStockAccountId body
              match engine.processSellTransaction w1.ledger args with
              | .threw m l =>
                ⟨.json 400 ("Error processing cost basis: " ++ m), { w1 with ledger := l },
                  [.sell args]⟩
              | .returned sellResult l =>
                persist env { w1 with ledger := l } uid finalStockAccountId body fee taxRate
                  sellResult.profitOrLoss [.sell args]
            else
              persist env w1 uid finalStockAccountId body fee taxRate .null []

/-! ## Sample engine and states

A small engine over a ledger of lot quantities, used to run the handler on
concrete requests: a buy appends a lot, a sell consumes the oldest lot whole
and fails on an empty ledger. -/

/-- A stand-in engine over a ledger that lists the open lots' quantities. -/
def sampleEngine : Engine (List JsVal) where
  processBuyTransaction l a := .returned .obj (l ++ [a.quantity])
  processSellTransaction l _ :=
    match l with
    | [] => .threw "Insufficient shares" l
    | _ :: rest => .returned { profitOrLoss := .num 25 } rest

/-- An environment in which no Prisma call rejects. -/
def calmEnv : Env where
  fault _ := false
  now := 7
  upper s := s.toUpper
  objectIdFilter _ := false

/-- An environment in which only `prisma.transaction.create` rejects. -/
def createFailsEnv : Env where
  fault op := decide (op = .transactionCreate)
  now := 7
  upper s := s.toUpper
  objectIdFilter _ := false

/-- An environment for a body whose `stockAccountId` is the object
`{ not: 'zzz' }`: Prisma reads it as the filter "id other than zzz", and
rejects it as the `stockAccountId` of a row to create. -/
def notZzzEnv : Env where
  fault op := decide (op = .transactionCreate)
  now := 7
  upper s := s.toUpper
  objectIdFilter id := decide (id ≠ "zzz")

/-- The account of user `u1`. -/
def acct1 : StockAccount :=
  { id := "acc1", name := "Main", brokerName := none, accountNumber := none,
    description := none, userId := "u1", createdAt := 1 }

/-- A database with one user owning one account, one open lot, no transactions
and one cached listing. -/
def world1 : World (List JsVal) Nat :=
  { users := ["u1"], stockAccounts := [acct1], transactions := [],
    ledger := [.num 100], cache := [("recent_u1_10", 0)] }

/-- A body with every field supplied. -/
def body1 (type : String) : Body :=
  { ticker := .str "VNM", type := .str type, quantity := .num 10, price := .num 50,
    transactionDate := .str "2024-01-02", fee := .num 3, taxRate := .num 1,
    notes := .undefined, stockAccountId := .str "acc1" }

/-- A request by user `u1`. -/
def req1 (body : Body) : Request := { session := some "u1", body := some body }

/-- An empty ledger, on which `sampleEngine` refuses to sell. -/
def world0 : World (List JsVal) Nat := { world1 with ledger := [] }

/-- A body like `body1 "BUY"` with the given quantity and price. -/
def body2 (quantity price : JsVal) : Body :=
  { body1 "BUY" with quantity := quantity, price := price }

/-- A SELL body that omits `fee` and supplies `taxRate`. -/
def body3 : Body := { body1 "SELL" with fee := .undefined }

/-- An account of another user, `u2`. -/
def acct2 : StockAccount :=
  { id := "acc2", name := "Other", brokerName := none, accountNumber := none,
    description := none, userId := "u2", createdAt := 2 }

/-- The database `world1` with a second user and their account. -/
def world2 : World (List JsVal) Nat :=
  { world1 with users := ["u1", "u2"], stockAccounts := [acct1, acct2] }

/-- A BUY body naming the account of `u2`. -/
def body4 : Body := { body1 "BUY" with stockAccountId := .str "acc2" }

/-- A BUY body whose `stockAccountId` is an object. -/
def body5 : Body := { body1 "BUY" with stockAccountId := .obj }

/-! ## Profit statistics (lines 56-107) -/

/-- A transaction as `prisma.transaction.findMany` returns it to `GET`: typed
columns, `calculatedPl` a nullable number. -/
structure Tx where
  id : String
  userId : String
  stockAccountId : String
  ticker : String
  type : String
  quantity : ℚ
  price : ℚ
  fee : ℚ
  taxRate : ℚ
  calculatedPl : Option ℚ
  deriving DecidableEq

/-- The expression `tx.calculatedPl || 0`: a null (or zero) value reads as 0. -/
def Tx.pl (tx : Tx) : ℚ :=
  match tx.calculatedPl with
  | some v => v
  | none => 0

/-- The nearest integer to `q`, a half going to the even neighbour. -/
def roundHalfEven (q : ℚ) : ℤ :=
  if q - ⌊q⌋ < 1 / 2 then ⌊q⌋
  else if 1 / 2 < q - ⌊q⌋ then ⌊q⌋ + 1
  else if ⌊q⌋ % 2 = 0 then ⌊q⌋ else ⌊q⌋ + 1

/-- The number of binary digits of `n`, by halving (`fuel` bounds the number of
halvings; `n` itself is enough). -/
def bitLength : Nat → Nat → Nat
  | 0, _ => 0
  | fuel + 1, n => if n = 0 then 0 else bitLength fuel (n / 2) + 1

/-- The binary exponent of a nonzero `x`: the `e` with `2 ^ e ≤ |x| < 2 ^ (e + 1)`.
The difference of the bit lengths of numerator and denominator is `e` or
`e + 1`; one comparison decides. -/
def binaryExponent (x : ℚ) : ℤ :=
  if (2 : ℚ) ^ ((bitLength x.num.natAbs x.num.natAbs : ℤ) - (bitLength x.den x.den : ℤ)) ≤ |x|
  then (bitLength x.num.natAbs x.num.natAbs : ℤ) - (bitLength x.den x.den : ℤ)
  else (bitLength x.num.natAbs x.num.natAbs : ℤ) - (bitLength x.den x.den : ℤ) - 1

/-- The exponent a double uses for `x`: the binary exponent, but never below
-1022 (smaller numbers are subnormal). -/
def doubleExponent (x : ℚ) : ℤ := max (binaryExponent x) (-1022)

/-- The distance between neighbouring doubles around `x`: 52 binary digits below
the exponent. -/
def ulp (x : ℚ) : ℚ := (2 : ℚ) ^ (doubleExponent x - 52)

/-- The double nearest to the exact value `x` (IEEE 754 binary64, round to
nearest, ties to even, gradual underflow). A value beyond the largest double,
which JavaScript turns into `Infinity`, is rounded like any other. -/
def toDouble (x : ℚ) : ℚ := if x = 0 then 0 else (roundHalfEven (x / ulp x) : ℚ) * ulp x

/-- JavaScript `a + b` on numbers. -/
def fadd (a b : ℚ) : ℚ := toDouble (a + b)

/-- JavaScript `a - b` on numbers. -/
def fsub (a b : ℚ) : ℚ := toDouble (a - b)

/-- JavaScript `a * b` on numbers. -/
def fmul (a b : ℚ) : ℚ := toDouble (a * b)

/-- JavaScript `a / b` on numbers, `b` not zero. -/
def fdiv (a b : ℚ) : ℚ := toDouble (a / b)

/-- JavaScript `Math.round`: the nearest integer, halves going up. -/
def mathRound (x : ℚ) : ℚ := ((⌊x + 1 / 2⌋ : ℤ) : ℚ)

/-- The object returned by `calculateProfitStats`; the early return has no
`breakEvenTransactions` field. -/
structure ProfitStats where
  totalProfitLoss : ℚ
  profitableTransactions : Nat
  unprofitableTransactions : Nat
  breakEvenTransactions : Option Nat
  totalTransactions : Nat
  successRate : ℚ
  averageProfit : ℚ
  totalProfit : ℚ
  totalLoss : ℚ
  accountFeesTotal : ℚ
  grossProfitLoss : ℚ
  deriving DecidableEq

/-- The function `calculateProfitStats` (lines 57-107), in the arithmetic of
JavaScript's numbers. -/
def calculateProfitStats (transactions : List Tx) (accountFeesTotal : ℚ) : ProfitStats :=
  let sellTransactions := transactions.filter (fun tx => tx.type = "SELL")
  if sellTransactions.length = 0 then
    { totalProfitLoss := -accountFeesTotal
      profitableTransactions := 0
      unprofitableTransactions := 0
      breakEvenTransactions := none
      totalTransactions := 0
      successRate := 0
      averageProfit :=
        if sellTransactions.length > 0 then fdiv (-accountFeesTotal) sellTransactions.length
        else 0
      totalProfit := 0
      totalLoss := 0
      accountFeesTotal := accountFeesTotal
      grossProfitLoss := 0 }
  else
    let profitLosses := sellTransactions.map (fun tx => tx.pl)
    let grossProfitLoss := profitLosses.foldl (fun sum pl => fadd sum pl) 0
    let totalProfitLoss := fsub grossProfitLoss accountFeesTotal
    let profitableTransactions := (sellTransactions.filter (fun tx => tx.pl > 0)).length
    let unprofitableTransactions := (sellTransactions.filter (fun tx => tx.pl < 0)).length
    let breakEvenTransactions := (sellTransactions.filter (fun tx => tx.pl = 0)).length
    let totalProfit :=
      (sellTransactions.filter (fun tx => tx.pl > 0)).foldl (fun sum tx => fadd sum tx.pl) 0
    let totalLoss :=
      (sellTransactions.filter (fun tx => tx.pl < 0)).foldl (fun sum tx => fadd sum tx.pl) 0
    let successRate : ℚ :=
      if sellTransactions.length > 0 then
        fmul (fdiv (profitableTransactions : ℚ) sellTransactions.length) 100
      else 0
    let averageProfit : ℚ :=
      if sellTransactions.length > 0 then fdiv totalProfitLoss sellTransactions.length else 0
    { totalProfitLoss := mathRound totalProfitLoss
      profitableTransactions := profitableTransactions
      unprofitableTransactions := unprofitableTransactions
      breakEvenTransactions := some breakEvenTransactions
      totalTransactions := sellTransactions.length
      successRate := fdiv (mathRound (fmul successRate 100)) 100
      averageProfit := mathRound averageProfit
      totalProfit := mathRound totalProfit
      totalLoss := mathRound totalLoss
      accountFeesTotal := mathRound accountFeesTotal
      grossProfitLoss := mathRound grossProfitLoss }

/-! ## Sample transactions -/

/-- A row of user `u1` with the given id, type and stored profit/loss. -/
def tx (id type : String) (pl : Option ℚ) : Tx :=
  { id := id, userId := "u1", stockAccountId := "acc1", ticker := "VNM", type := type,
    quantity := 10, price := 50, fee := 0, taxRate := 0, calculatedPl := pl }

/-- Two sells (one with a null profit/loss), one buy and a losing sell. -/
def txs1 : List Tx :=
  [tx "a" "SELL" (some 5), tx "b" "BUY" (some 9), tx "c" "SELL" none, tx "d" "SELL" (some (-1))]

/-- A list of 160 SELL rows, 23 of them with a profit. -/
def sells160 : List Tx :=
  List.replicate 23 (tx "w" "SELL" (some 1)) ++ List.replicate 137 (tx "l" "SELL" (some (-1)))

/-- Three SELL rows holding `2 ^ 53`, `-2 ^ 53` and 1. -/
def bigSells : List Tx :=
  [tx "a" "SELL" (some 9007199254740992), tx "b" "SELL" (some (-9007199254740992)),
    tx "c" "SELL" (some 1)]

/-! ## The cost-basis engine of the specification -/

/-- Modelled from the spec: the `PurchaseLot` of section 3. The engine's module
(`lib/cost-basis-calculator-wrapper`, imported on line 5) is not among the
sources; this and the following definitions follow sections 3, 4.1 and 7. -/
structure PurchaseLot where
  id : Nat
  userId : String
  stockAccountId : String
  ticker : String
  quantityOriginal : ℚ
  quantityRemaining : ℚ
  unitCost : ℚ
  fee : ℚ
  acquisitionDate : Int
  deriving DecidableEq

/-- Modelled from the spec: a `SaleConsumption` row of section 3 (the engine's
source is missing), one per lot a sale drew from. -/
structure SaleConsumption where
  lotId : Nat
  quantityConsumedFromLot : ℚ
  costBasisPortion : ℚ
  deriving DecidableEq

/-- Modelled from the spec: the engine's error kinds of section 7 (the engine's
source is missing). -/
inductive EngineError where
  | validationError
  | insufficientInventory
  deriving DecidableEq

deriving instance DecidableEq for Except

/-- Modelled from the spec: the result `{profitOrLoss, consumptions}` of
`processSellTransaction` in section 4.1 (the engine's source is missing). -/
structure SaleOutcome where
  profitOrLoss : ℚ
  consumptions : List SaleConsumption
  deriving DecidableEq

/-- Modelled from the spec: FIFO order of section 3 (the engine's source is
missing), by acquisition date, ties broken by lot id. -/
def olderFirst (a b : PurchaseLot) : Prop :=
  a.acquisitionDate < b.acquisitionDate
    ∨ (a.acquisitionDate = b.acquisitionDate ∧ a.id ≤ b.id)

instance olderFirst.decidable : DecidableRel olderFirst :=
  fun a b => by unfold olderFirst; exact inferInstance

instance olderFirst.isTotal : IsTotal PurchaseLot olderFirst :=
  ⟨fun a b => by
    unfold olderFirst
    rcases lt_trichotomy a.acquisitionDate b.acquisitionDate with h | h | h
    · exact Or.inl (Or.inl h)
    · rcases le_total a.id b.id with hi | hi
      · exact Or.inl (Or.inr ⟨h, hi⟩)
      · exact Or.inr (Or.inr ⟨h.symm, hi⟩)
    · exact Or.inr (Or.inl h)⟩

instance olderFirst.isTrans : IsTrans PurchaseLot olderFirst :=
  ⟨fun a b c hab hbc => by
    unfold olderFirst at *
    rcases hab with h1 | ⟨h1, h1'⟩ <;> rcases hbc with h2 | ⟨h2, h2'⟩
    · exact Or.inl (lt_trans h1 h2)
    · exact Or.inl (h2 ▸ h1)
    · exact Or.inl (h1 ▸ h2)
    · exact Or.inr ⟨h1.trans h2, le_trans h1' h2'⟩⟩

/-- Modelled from the spec: "fetch open lots for the ticker/account ordered
oldest-first" (section 4.1; the engine's source is missing). -/
def openLots (ledger : List PurchaseLot) (userId accountId ticker : String) : List PurchaseLot :=
  (ledger.filter (fun lot =>
      lot.userId = userId ∧ lot.stockAccountId = accountId ∧ lot.ticker = ticker
        ∧ 0 < lot.quantityRemaining)).insertionSort olderFirst

/-- Modelled from the spec: "walk the ordered list, consuming
`min(lot.quantityRemaining, remainingToSell)` from each lot until the sell
quantity is exhausted", recording a consumption per lot touched (section 4.1;
the engine's source is missing). -/
def consumeLots : List PurchaseLot → ℚ → List SaleConsumption
  | [], _ => []
  | lot :: rest, remainingToSell =>
    if remainingToSell ≤ 0 then []
    else
      { lotId := lot.id
        quantityConsumedFromLot := min lot.quantityRemaining remainingToSell
        costBasisPortion := min lot.quantityRemaining remainingToSell * lot.unitCost }
        :: consumeLots rest (remainingToSell - min lot.quantityRemaining remainingToSell)

/-- Modelled from the spec: "decrement each touched lot's quantityRemaining"
(section 4.1; the engine's source is missing). -/
def decrementLots (ledger : List PurchaseLot) (consumptions : List SaleConsumption) :
    List PurchaseLot :=
  ledger.map (fun lot =>
    match consumptions.find? (fun c => c.lotId = lot.id) with
    | some c => { lot with quantityRemaining := lot.quantityRemaining - c.quantityConsumedFromLot }
    | none => lot)

/-- Modelled from the spec: `processSellTransaction` of section 4.1 (the
engine's source is missing). The tax rule is left open by the spec and is a
parameter, applied to the tax rate, the gross proceeds and the cost basis. -/
def processSellTransaction (taxRule : ℚ → ℚ → ℚ → ℚ) (ledger : List PurchaseLot)
    (userId accountId ticker : String) (quantity price fee taxRate : ℚ) (_date : Int) :
    Except EngineError (SaleOutcome × List PurchaseLot) :=
  if quantity ≤ 0 then .error .validationError
  else
    let lots := openLots ledger userId accountId ticker
    if (lots.map (fun lot => lot.quantityRemaining)).sum < quantity then
      .error .insufficientInventory
    else
      let consumptions := consumeLots lots quantity
      let costBasis := (consumptions.map (fun c => c.costBasisPortion)).sum
      let tax := taxRule taxRate (price * quantity) costBasis
      .ok ({ profitOrLoss := price * quantity - fee - tax - costBasis
             consumptions := consumptions },
           decrementLots ledger consumptions)

/-- Modelled from the spec: `processBuyTransaction` of section 4.1 (the
engine's source is missing): a new lot with `quantityRemaining = quantity` and
`unitCost = price`. -/
def processBuyTransaction (ledger : List PurchaseLot) (userId accountId ticker : String)
    (quantity price fee : ℚ) (date : Int) : Except EngineError (PurchaseLot × List PurchaseLot) :=
  if quantity ≤ 0 ∨ price < 0 then .error .validationError
  else
    let lot : PurchaseLot :=
      { id := (ledger.map (fun l => l.id)).foldr max 0 + 1
        userId := userId
        stockAccountId := accountId
        ticker := ticker
        quantityOriginal := quantity
        quantityRemaining := quantity
        unitCost := price
        fee := fee
        acquisitionDate := date }
    .ok (lot, ledger ++ [lot])

/-- Modelled from the spec: the message an engine error carries to the handler
(the engine's source is missing; section 7 names the kinds only). -/
def EngineError.message : EngineError → String
  | .validationError => "ValidationError"
  | .insufficientInventory => "InsufficientInventory"

/-- Modelled from the spec: the engine as the handler calls it (section 6; the
engine's source is missing), over a ledger of purchase lots. The JSON-decoded
arguments must be strings and numbers and the date must parse, or the call
fails with a validation error before touching the ledger; an engine error
leaves the ledger as it was. -/
def ledgerEngine (taxRule : ℚ → ℚ → ℚ → ℚ) (parseDate : String → Option Int) :
    Engine (List PurchaseLot) where
  processBuyTransaction ledger a :=
    match a.stockAccountId, a.ticker, a.quantity, a.price, a.fee, a.transactionDate with
    | .str accountId, .str ticker, .num quantity, .num price, .num fee, .str d =>
      match parseDate d with
      | some date =>
        match processBuyTransaction ledger a.userId accountId ticker quantity price fee date with
        | .ok (_, ledger') => .returned .obj ledger'
        | .error e => .threw e.message ledger
      | none => .threw EngineError.validationError.message ledger
    | _, _, _, _, _, _ => .threw EngineError.validationError.message ledger
  processSellTransaction ledger a :=
    match a.stockAccountId, a.ticker, a.quantity, a.price, a.fee, a.taxRate,
      a.transactionDate with
    | .str accountId, .str ticker, .num quantity, .num price, .num fee, .num taxRate, .str d =>
      match parseDate d with
      | some date =>
        match processSellTransaction taxRule ledger a.userId accountId ticker quantity price fee
            taxRate date with
        | .ok (out, ledger') => .returned { profitOrLoss := .num out.profitOrLoss } ledger'
        | .error e => .threw e.message ledger
      | none => .threw EngineError.validationError.message ledger
    | _, _, _, _, _, _, _ => .threw EngineError.validationError.message ledger

/-! ## Sample ledger -/

/-- A lot of user `u1` on account `acc1` for ticker `VNM`. -/
def lot (id : Nat) (quantity unitCost : ℚ) (date : Int) : PurchaseLot :=
  { id := id, userId := "u1", stockAccountId := "acc1", ticker := "VNM",
    quantityOriginal := quantity, quantityRemaining := quantity, unitCost := unitCost,
    fee := 0, acquisitionDate := date }

/-- The ledger of the specification's FIFO example, newest lot stored first:
50 shares at 12 bought at `t2`, 100 shares at 10 bought at `t1`. -/
def fifoLedger (t1 t2 : Int) : List PurchaseLot := [lot 2 50 12 t2, lot 1 100 10 t1]

/-- A tax rule that charges nothing. -/
def noTax : ℚ → ℚ → ℚ → ℚ := fun _ _ _ => 0

/-- A date parser for the sample requests: every string is day 30. -/
def day30 : String → Option Int := fun _ => some 30

/-- The database `world1` with the FIFO example's ledger (dates 10 and 20). -/
def world3 : World (List PurchaseLot) Nat :=
  { users := ["u1"], stockAccounts := [acct1], transactions := [],
    ledger := fifoLedger 10 20, cache := [("recent_u1_10", 0)] }

/-! ## The listing handler `GET` (lines 8-54 and 123-472) -/

/-- The query parameters `GET` reads: `searchParams.get` yields a string, or
null when the parameter is absent. -/
structure Query where
  ticker : Option String
  type : Option String
  stockAccountId : Option String
  dateFrom : Option String
  dateTo : Option String
  minAmount : Option String
  maxAmount : Option String
  sortBy : Option String
  sortOrder : Option String
  page : Option String
  pageSize : Option String
  deriving DecidableEq

/-- A GET request: the session's user id and the query parameters. -/
structure GetRequest where
  session : Option String
  query : Query
  deriving DecidableEq

/-- The expression `v || d` for a string-or-null `v`: null and the empty string
give `d`. -/
def orString (v : Option String) (d : String) : String :=
  match v with
  | some s => if s = "" then d else s
  | none => d

/-- Truthiness of a string-or-null value. -/
def present (v : Option String) : Bool :=
  match v with
  | some s => decide (s ≠ "")
  | none => false

/-- The ticker condition of lines 194-205. -/
inductive TickerFilter where
  | contains (s : String)
  | startsWith (s : String)
  deriving DecidableEq

/-- A `{ gte, lte }` condition; a bound is absent (`none`) or a value of type
`α`. -/
structure Bounds (α : Type) where
  gte : Option α
  lte : Option α
  deriving DecidableEq

/-- The `whereClause` of lines 179-233. Dates are timestamps, `none` standing
for an invalid `Date`; prices are numbers, `none` standing for `NaN`. -/
structure WhereClause where
  userId : String
  type : Option String
  stockAccountId : Option String
  ticker : Option TickerFilter
  transactionDate : Option (Bounds (Option Int))
  price : Option (Bounds (Option ℚ))
  deriving DecidableEq

/-- The `whereClause` of `getAccountFeesTotal` (lines 10-30). -/
structure FeeWhere where
  userId : String
  isActive : Bool
  stockAccountId : Option String
  feeDate : Option (Bounds (Option Int))
  deriving DecidableEq

/-- The `orderBy` handed to Prisma: an object with one key, or an array of
one-key objects. -/
inductive OrderBy where
  | object (field : String) (direction : String)
  | array (keys : List (String × String))
  deriving DecidableEq

/-- The sort keys of an `orderBy`, first to last. -/
def OrderBy.keys : OrderBy → List (String × String)
  | .object field direction => [(field, direction)]
  | .array keys => keys

/-- The arguments of a `prisma.transaction.findMany` call (the `select` list is
the same in every call); `skip` is absent in the recent-transactions query. -/
structure FindManyArgs where
  whereClause : WhereClause
  orderBy : OrderBy
  skip : Option (Option Int)
  take : Option Int
  deriving DecidableEq

/-- What `GET` takes from the JavaScript runtime: the clock, `Math.random()`,
number and date parsing, the text of a number, and case conversion. A parsed
number is `none` when it is `NaN`; a date is `none` when it is invalid. -/
structure GetEnv where
  now : Int
  random : ℚ
  parseInt : String → Option Int
  parseFloat : String → Option ℚ
  parseDate : String → Option Int
  endOfDay : Option Int → Option Int
  numberText : Option Int → String
  upper : String → String
  lower : String → String

/-- The database as `GET` queries it: each call answers or rejects (`none`).
`joinsFail` says whether the account and journal lookups of the
recent-transactions path reject. -/
structure TxDb where
  findMany : FindManyArgs → Option (List Tx)
  count : WhereClause → Option Nat
  feeAggregate : FeeWhere → Option (Option ℚ × Nat)
  joinsFail : Bool

/-- The body of a successful listing response. The `StockAccount` and
`journalEntry` objects joined to each row on the recent-transactions path are
not represented. -/
structure GetResult where
  transactions : List Tx
  totalCount : Nat
  page : Option Int
  pageSize : Option Int
  totalPages : Option Int
  profitStats : ProfitStats
  deriving DecidableEq

/-- A value of `transactionCache`. -/
structure CacheEntry where
  data : GetResult
  timestamp : Int
  deriving DecidableEq

/-- How a GET ends: 401, a cached body, a freshly computed body, or the
sanitized error of the `catch` block. -/
inductive GetOutcome where
  | unauthorized
  | cached (data : GetResult)
  | fresh (data : GetResult)
  | failed
  deriving DecidableEq

/-- Whether the response is a cached body. -/
def GetOutcome.servedFromCache : GetOutcome → Bool
  | .cached _ => true
  | _ => false

/-- The body of a listing response, if there is one. -/
def GetOutcome.body : GetOutcome → Option GetResult
  | .cached data => some data
  | .fresh data => some data
  | _ => none

/-- The result of one GET: the response, the cache afterwards and the
`findMany` calls issued. -/
structure GetRun where
  outcome : GetOutcome
  cache : List (String × CacheEntry)
  queries : List FindManyArgs
  deriving DecidableEq

/-- The constant `CACHE_TTL` (line 125): five minutes in milliseconds. -/
def CACHE_TTL : Int := 5 * 60 * 1000

/-- The method `Map.prototype.get`. -/
def cacheGet {C : Type} (cache : List (String × C)) (key : String) : Option C :=
  (cache.find? (fun e => e.1 = key)).map (fun e => e.2)

/-- The method `Map.prototype.set`: an existing key keeps its place. -/
def cacheSet {C : Type} (cache : List (String × C)) (key : String) (value : C) :
    List (String × C) :=
  if cache.any (fun e => e.1 = key) then
    cache.map (fun e => if e.1 = key then (key, value) else e)
  else cache ++ [(key, value)]

/-- The cache test of lines 170-171 and 268-270: an entry under `key` that is
younger than `CACHE_TTL`. -/
def freshEntry (env : GetEnv) (cache : List (String × CacheEntry)) (key : String) :
    Option GetResult :=
  match cacheGet cache key with
  | some entry => if entry.timestamp > env.now - CACHE_TTL then some entry.data else none
  | none => none

/-- A hexadecimal digit, lower case. -/
def hexDigit (n : Nat) : Char :=
  if n < 10 then Char.ofNat (48 + n) else Char.ofNat (87 + n)

/-- How `JSON.stringify` writes one character of a string: the quote and the
backslash are escaped, control characters are written as escapes. -/
def jsonEscape (c : Char) : List Char :=
  if c = '"' then ['\\', '"']
  else if c = '\\' then ['\\', '\\']
  else if c = '\x08' then ['\\', 'b']
  else if c = '\x0c' then ['\\', 'f']
  else if c = '\n' then ['\\', 'n']
  else if c = '\r' then ['\\', 'r']
  else if c = '\t' then ['\\', 't']
  else if c.toNat < 32 then ['\\', 'u', '0', '0', hexDigit (c.toNat / 16), hexDigit (c.toNat % 16)]
  else [c]

/-- The text `JSON.stringify` gives a string. -/
def jsonString (s : String) : String :=
  "\"" ++ String.mk (s.toList.flatMap jsonEscape) ++ "\""

/-- The text `JSON.stringify` gives a string-or-null value. -/
def jsonParam (v : Option String) : String :=
  match v with
  | some s => jsonString s
  | none => "null"

/-- The `cacheKey` of lines 163-167: `JSON.stringify` of the user id, the
filters, the sort and the page. -/
def cacheKey (env : GetEnv) (uid : String) (q : Query) (sortBy sortOrder : String)
    (page pageSize : Option Int) : String :=
  "\x7b\"userId\":" ++ jsonString uid
    ++ ",\"ticker\":" ++ jsonParam q.ticker
    ++ ",\"type\":" ++ jsonParam q.type
    ++ ",\"stockAccountId\":" ++ jsonParam q.stockAccountId
    ++ ",\"dateFrom\":" ++ jsonParam q.dateFrom
    ++ ",\"dateTo\":" ++ jsonParam q.dateTo
    ++ ",\"minAmount\":" ++ jsonParam q.minAmount
    ++ ",\"maxAmount\":" ++ jsonParam q.maxAmount
    ++ ",\"sortBy\":" ++ jsonString sortBy
    ++ ",\"sortOrder\":" ++ jsonString sortOrder
    ++ ",\"page\":" ++ env.numberText page
    ++ ",\"pageSize\":" ++ env.numberText pageSize ++ "\x7d"

/-- The `recentCacheKey` of line 267; `pageSize` is 10 on that path. -/
def recentCacheKey (uid : String) : String :=
  "recent_" ++ uid ++ "_" ++ "10"

/-- The number of UTF-16 code units of a string (`String.prototype.length`). -/
def jsLength (s : String) : Nat :=
  (s.toList.map (fun c => if c.toNat < 65536 then 1 else 2)).sum

/-- The date condition built on lines 20-30 and 208-220. -/
def dateBounds (env : GetEnv) (dateFrom dateTo : Option String) : Option (Bounds (Option Int)) :=
  if present dateFrom || present dateTo then
    some { gte := if present dateFrom then some (env.parseDate (orString dateFrom "")) else none
           lte := if present dateTo then some (env.endOfDay (env.parseDate (orString dateTo "")))
                  else none }
  else none

/-- The `whereClause` built on lines 179-233. -/
def buildWhere (env : GetEnv) (uid : String) (q : Query) : WhereClause :=
  { userId := uid
    type := if present q.type then q.type else none
    stockAccountId := if present q.stockAccountId then q.stockAccountId else none
    ticker :=
      if present q.ticker then
        if jsLength (orString q.ticker "") ≥ 2 then
          some (.contains (env.upper (orString q.ticker "")))
        else some (.startsWith (env.upper (orString q.ticker "")))
      else none
    transactionDate := dateBounds env q.dateFrom q.dateTo
    price :=
      if present q.minAmount || present q.maxAmount then
        some { gte := if present q.minAmount then some (env.parseFloat (orString q.minAmount ""))
                      else none
               lte := if present q.maxAmount then some (env.parseFloat (orString q.maxAmount ""))
                      else none }
      else none }

/-- The list `validSortFields` of lines 236-239. -/
def validSortFields : List String :=
  ["transactionDate", "ticker", "type", "quantity", "price", "calculatedPl", "fee", "taxRate"]

/-- The `orderBy` built on lines 241-256. -/
def buildOrderBy (lower : String → String) (sortBy sortOrder : String) : OrderBy :=
  let orderBy : String × String :=
    if validSortFields.contains sortBy then (sortBy, lower sortOrder)
    else ("transactionDate", "desc")
  if sortBy ≠ "id" then .array [orderBy, ("id", "desc")]
  else .object orderBy.1 orderBy.2

/-- The function `getAccountFeesTotal` (lines 9-54): the total amount and the
count; a rejected aggregate gives zeros. -/
def getAccountFeesTotal (env : GetEnv) (db : TxDb) (userId : String)
    (stockAccountId dateFrom dateTo : Option String) : ℚ × Nat :=
  let whereClause : FeeWhere :=
    { userId := userId
      isActive := true
      stockAccountId := if present stockAccountId then stockAccountId else none
      feeDate := dateBounds env dateFrom dateTo }
  match db.feeAggregate whereClause with
  | some (sum, count) => (sum.getD 0, count)
  | none => (0, 0)

/-- The value `Math.ceil(totalCount / pageSize)`; `none` when it is not a
finite number. -/
def totalPages (totalCount : Nat) (pageSize : Option Int) : Option Int :=
  match pageSize with
  | some p => if p = 0 then none else some ⌈(totalCount : ℚ) / (p : ℚ)⌉
  | none => none

/-- The test `isCommonRequest` of lines 259-263. -/
def isCommonRequest (q : Query) (sortBy sortOrder : String) (page pageSize : Option Int) : Bool :=
  decide (page = some 1) && decide (pageSize = some 10) && decide (sortBy = "transactionDate")
    && decide (sortOrder = "desc") && !present q.ticker && !present q.type
    && !present q.stockAccountId && !present q.dateFrom && !present q.dateTo
    && !present q.minAmount && !present q.maxAmount

/-- The query of the recent-transactions path (lines 279-304). -/
def recentArgs (uid : String) (pageSize : Option Int) : FindManyArgs :=
  { whereClause := { userId := uid, type := none, stockAccountId := none, ticker := none,
                     transactionDate := none, price := none }
    orderBy := .array [("transactionDate", "desc"), ("id", "desc")]
    skip := none
    take := pageSize }

/-- The `try` block of lines 276-381: `none` when one of its calls rejects. -/
def recentPath (env : GetEnv) (db : TxDb) (uid : String) (q : Query)
    (page pageSize : Option Int) : Option GetResult :=
  match db.findMany (recentArgs uid pageSize) with
  | none => none
  | some transactions =>
    if db.joinsFail then none
    else
      match db.count (recentArgs uid pageSize).whereClause with
      | none => none
      | some totalCount =>
        let accountFeesData := getAccountFeesTotal env db uid q.stockAccountId q.dateFrom q.dateTo
        some { transactions := transactions
               totalCount := totalCount
               page := page
               pageSize := pageSize
               totalPages := totalPages totalCount pageSize
               profitStats := calculateProfitStats transactions accountFeesData.1 }

/-- The query of the standard path (lines 393-415). -/
def mainArgs (env : GetEnv) (uid : String) (q : Query) (sortBy sortOrder : String)
    (page pageSize : Option Int) : FindManyArgs :=
  { whereClause := buildWhere env uid q
    orderBy := buildOrderBy env.lower sortBy sortOrder
    skip := some (match page, pageSize with
      | some p, some s => some ((p - 1) * s)
      | _, _ => none)
    take := pageSize }

/-- The standard path (lines 388-454), after `earlier` queries were issued. -/
def mainPath (env : GetEnv) (db : TxDb) (cache : List (String × CacheEntry)) (uid : String)
    (q : Query) (sortBy sortOrder : String) (page pageSize : Option Int)
    (earlier : List FindManyArgs) : GetRun :=
  let args := mainArgs env uid q sortBy sortOrder page pageSize
  match db.count args.whereClause, db.findMany args with
  | some totalCount, some transactions =>
    let accountFeesData := getAccountFeesTotal env db uid q.stockAccountId q.dateFrom q.dateTo
    let result : GetResult :=
      { transactions := transactions
        totalCount := totalCount
        page := page
        pageSize := pageSize
        totalPages := totalPages totalCount pageSize
        profitStats := calculateProfitStats transactions accountFeesData.1 }
    let cache1 := cacheSet cache (cacheKey env uid q sortBy sortOrder page pageSize)
      { data := result, timestamp := env.now }
    let cache2 :=
      if env.random < 5 / 100 then
        cache1.filter (fun e => !decide (e.2.timestamp ≤ env.now - CACHE_TTL))
      else cache1
    ⟨.fresh result, cache2, earlier ++ [args]⟩
  | _, _ => ⟨.failed, cache, earlier ++ [args]⟩

/-- The handler `GET` (lines 134-472). -/
def GET (env : GetEnv) (db : TxDb) (cache : List (String × CacheEntry)) (req : GetRequest) :
    GetRun :=
  match req.session with
  | none => ⟨.unauthorized, cache, []⟩
  | some uid =>
    let q := req.query
    let sortBy := orString q.sortBy "transactionDate"
    let sortOrder := orString q.sortOrder "desc"
    let page := env.parseInt (orString q.page "1")
    let pageSize := env.parseInt (orString q.pageSize "10")
    match freshEntry env cache (cacheKey env uid q sortBy sortOrder page pageSize) with
    | some data => ⟨.cached data, cache, []⟩
    | none =>
      if isCommonRequest q sortBy sortOrder page pageSize then
        match freshEntry env cache (recentCacheKey uid) with
        | some data => ⟨.cached data, cache, []⟩
        | none =>
          match recentPath env db uid q page pageSize with
          | some result =>
            ⟨.fresh result,
              cacheSet cache (recentCacheKey uid) { data := result, timestamp := env.now },
              [recentArgs uid pageSize]⟩
          | none =>
            mainPath env db cache uid q sortBy sortOrder page pageSize [recentArgs uid pageSize]
      else mainPath env db cache uid q sortBy sortOrder page pageSize []

/-! ## Sample listing environment -/

/-- A runtime for the sample requests: it reads the page numbers used below. -/
def sampleGetEnv : GetEnv where
  now := 1000000
  random := 1 / 2
  parseInt s := if s = "1" then some 1 else if s = "10" then some 10 else none
  parseFloat _ := none
  parseDate _ := none
  endOfDay d := d
  numberText n := match n with
    | some k => toString k
    | none => "null"
  upper s := s
  lower s := s

/-- A database holding `rows`, already in the order asked for: it applies the
user, type and account conditions, then `skip` and `take`; it has no account
fees. -/
def listDb (rows : List Tx) : TxDb where
  findMany args :=
    match args.skip.getD (some 0), args.take with
    | some skip, some take =>
      if 0 ≤ skip ∧ 0 ≤ take then
        some (((rows.filter (fun r => r.userId = args.whereClause.userId
            ∧ (args.whereClause.type = none ∨ args.whereClause.type = some r.type)
            ∧ (args.whereClause.stockAccountId = none
                ∨ args.whereClause.stockAccountId = some r.stockAccountId))).drop
              skip.toNat).take take.toNat)
      else none
    | _, _ => none
  count w :=
    some (rows.countP (fun r => r.userId = w.userId
      ∧ (w.type = none ∨ w.type = some r.type)
      ∧ (w.stockAccountId = none ∨ w.stockAccountId = some r.stockAccountId)))
  feeAggregate _ := some (none, 0)
  joinsFail := false

/-- Eleven profitable SELL rows of user `u1`. -/
def elevenSells : List Tx :=
  (List.range 11).map (fun i => tx (toString i) "SELL" (some 5))

/-- A query with no parameter set. -/
def emptyQuery : Query :=
  { ticker := none, type := none, stockAccountId := none, dateFrom := none, dateTo := none,
    minAmount := none, maxAmount := none, sortBy := none, sortOrder := none, page := none,
    pageSize := none }

/-- A request for the SELL rows, first page. -/
def sellQuery : Query := { emptyQuery with type := some "SELL" }

/-- A user id containing a double quote. -/
def quoteUid : String := "a\"b"

/-- The cache after user `quoteUid` has listed their SELL rows and then their
recent transactions: one entry under a filter key, one under the `recent_`
key. -/
def quoteCache : List (String × CacheEntry) :=
  (GET sampleGetEnv (listDb [])
    (GET sampleGetEnv (listDb []) [] { session := some quoteUid, query := sellQuery }).cache
    { session := some quoteUid, query := emptyQuery }).cache

/-- A database for user `quoteUid`, with the cache `quoteCache`. -/
def quoteWorld : World (List JsVal) CacheEntry :=
  { users := [quoteUid]
    stockAccounts := [{ acct1 with userId := quoteUid }]
    transactions := []
    ledger := [.num 100]
    cache := quoteCache }

/-- The cache after user `u1` has listed their SELL rows and then their recent
transactions: one entry under a filter key, one under the `recent_` key. -/
def u1Cache : List (String × CacheEntry) :=
  (GET sampleGetEnv (listDb [])
    (GET sampleGetEnv (listDb []) [] { session := some "u1", query := sellQuery }).cache
    { session := some "u1", query := emptyQuery }).cache

/-- The database `world1` with the cache `u1Cache`. -/
def world4 : World (List JsVal) CacheEntry :=
  { users := ["u1"], stockAccounts := [acct1], transactions := [],
    ledger := [.num 100], cache := u1Cache }

/-! ## Frame lemmas -/

theorem resolveAccount_ok_frame {L C : Type} {env : Env} {w w1 : World L C} {uid : String}
    {sid acct : JsVal} (h : resolveAccount env w uid sid = .ok w1 acct) :
    w1.transactions = w.transactions ∧ w1.ledger = w.ledger ∧ w1.users = w.users
      ∧ w1.cache = w.cache := by
  unfold resolveAccount at h
  split at h
  · split at h
    · exact absurd h (by simp)
    · split at h
      · split at h
        · exact absurd h (by simp)
        · simp only [Resolved.ok.injEq] at h
          obtain ⟨rfl, -⟩ := h
          simp
      · simp only [Resolved.ok.injEq] at h
        obtain ⟨rfl, -⟩ := h
        simp
  · split at h
    · exact absurd h (by simp)
    · split at h
      · exact absurd h (by simp)
      · simp only [Resolved.ok.injEq] at h
        obtain ⟨rfl, -⟩ := h
        simp

theorem persist_transactions {L C : Type} (env : Env) (w : World L C) (uid : String)
    (acct : JsVal) (body : Body) (fee taxRate pl : JsVal) (calls : List EngineCall) :
    (persist env w uid acct body fee taxRate pl calls).world.transactions = w.transactions
      ∨ ∃ row, (persist env w uid acct body fee taxRate pl calls).world.transactions
            = w.transactions ++ [row]
          ∧ row.calculatedPl = pl ∧ row.fee = fee ∧ row.taxRate = taxRate
          ∧ row.stockAccountId = acct ∧ row.userId = uid ∧ row.type = body.type := by
  unfold persist
  cases body.ticker <;> try exact Or.inl rfl
  by_cases hc : env.fault .transactionCreate = true
  · exact Or.inl (by simp [hc])
  · by_cases hl : env.fault .accountLookup = true
    · exact Or.inr ⟨_, by simp [hc, hl]; rfl, rfl, rfl, rfl, rfl, rfl, rfl⟩
    · exact Or.inr ⟨_, by simp [hc, hl]; rfl, rfl, rfl, rfl, rfl, rfl, rfl⟩

theorem persist_created {L C : Type} (env : Env) (w : World L C) (uid : String)
    (acct : JsVal) (body : Body) (fee taxRate pl : JsVal) (calls : List EngineCall) (t : String)
    (ht : body.ticker = .str t) (hc : env.fault .transactionCreate = false) :
    ∃ row, (persist env w uid acct body fee taxRate pl calls).world.transactions
            = w.transactions ++ [row]
          ∧ row.calculatedPl = pl ∧ row.type = body.type := by
  unfold persist
  rw [ht]
  by_cases hl : env.fault .accountLookup = true
  · exact ⟨_, by simp [hc, hl]; rfl, rfl, rfl⟩
  · exact ⟨_, by simp [hc, hl]; rfl, rfl, rfl⟩

theorem persist_ledger {L C : Type} (env : Env) (w : World L C) (uid : String)
    (acct : JsVal) (body : Body) (fee taxRate pl : JsVal) (calls : List EngineCall) :
    (persist env w uid acct body fee taxRate pl calls).world.ledger = w.ledger
      ∧ (persist env w uid acct body fee taxRate pl calls).world.stockAccounts = w.stockAccounts
      ∧ (persist env w uid acct body fee taxRate pl calls).engineCalls = calls := by
  unfold persist
  cases body.ticker <;> try exact ⟨rfl, rfl, rfl⟩
  by_cases hc : env.fault .transactionCreate = true
  · simp [hc]
  · by_cases hl : env.fault .accountLookup = true <;> simp [hc, hl]

/-! ## The stored profit/loss -/

/-- C1: when an authenticated SELL passes the handler's checks and
`processSellTransaction` returns `r`, the transaction table afterwards is the
old one, or the old one plus one row whose `calculatedPl` is `r.profitOrLoss`
itself; and the row is there whenever the ticker is a string and the create
call does not reject. -/
theorem POST_sell_stores_engine_profitOrLoss {L C : Type} (env : Env) (engine : Engine L)
    (w w1 : World L C) (req : Request) (uid : String) (body : Body) (acct : JsVal)
    (r : SellResult) (l : L)
    (hs : req.session = some uid) (hf : env.fault .userFindUnique = false) (hu : uid ∈ w.users)
    (hb : req.body = some body) (hm : missingRequired body = false)
    (ha : resolveAccount env w uid body.stockAccountId = .ok w1 acct)
    (ht : body.type = .str "SELL")
    (he : engine.processSellTransaction w1.ledger (sellArgs uid acct body) = .returned r l) :
    ((POST env engine w req).world.transactions = w.transactions
      ∨ ∃ row, (POST env engine w req).world.transactions = w.transactions ++ [row]
          ∧ row.calculatedPl = r.profitOrLoss)
    ∧ (∀ t, body.ticker = .str t → env.fault .transactionCreate = false →
        ∃ row, (POST env engine w req).world.transactions = w.transactions ++ [row]
          ∧ row.calculatedPl = r.profitOrLoss) := by
  have hfr := resolveAccount_ok_frame ha
  have hP : POST env engine w req
      = persist env { w1 with ledger := l } uid acct body (body.fee.orDefault (.num 0))
          (body.taxRate.orDefault (.num 0)) r.profitOrLoss [.sell (sellArgs uid acct body)] := by
    simp [POST, hs, hf, hu, hb, hm, ha, ht, he]
  rw [hP]
  refine ⟨?_, ?_⟩
  · rcases persist_transactions env { w1 with ledger := l } uid acct body
        (body.fee.orDefault (.num 0)) (body.taxRate.orDefault (.num 0)) r.profitOrLoss
        [.sell (sellArgs uid acct body)] with h | ⟨row, h, hpl, -⟩
    · exact Or.inl (by rw [h]; exact hfr.1)
    · exact Or.inr ⟨row, by rw [h]; simp [hfr.1], hpl⟩
  · intro t htk hc
    obtain ⟨row, h, hpl, -⟩ := persist_created env { w1 with ledger := l } uid acct body
        (body.fee.orDefault (.num 0)) (body.taxRate.orDefault (.num 0)) r.profitOrLoss
        [.sell (sellArgs uid acct body)] t htk hc
    exact ⟨row, by rw [h]; simp [hfr.1], hpl⟩

/-- C1 at a concrete request: user `u1` sells against `sampleEngine`, which
returns a profit of 25. -/
theorem POST_sell_stores_engine_profitOrLoss_witness :
    ((POST calmEnv sampleEngine world1 (req1 (body1 "SELL"))).world.transactions
        = world1.transactions
      ∨ ∃ row, (POST calmEnv sampleEngine world1 (req1 (body1 "SELL"))).world.transactions
            = world1.transactions ++ [row]
          ∧ row.calculatedPl = .num 25)
    ∧ (∀ t, (body1 "SELL").ticker = .str t → calmEnv.fault .transactionCreate = false →
        ∃ row, (POST calmEnv sampleEngine world1 (req1 (body1 "SELL"))).world.transactions
            = world1.transactions ++ [row]
          ∧ row.calculatedPl = .num 25) :=
  POST_sell_stores_engine_profitOrLoss calmEnv sampleEngine world1 world1
    (req1 (body1 "SELL")) "u1" (body1 "SELL") (.str "acc1") { profitOrLoss := .num 25 } []
    rfl rfl (by decide) rfl (by decide) (by decide) rfl rfl

/-- C2: when an authenticated BUY passes the handler's checks and
`processBuyTransaction` returns (any value `r`), the transaction table
afterwards is the old one, or the old one plus one row whose `calculatedPl` is
the number 0; and the row is there whenever the ticker is a string and the
create call does not reject. -/
theorem POST_buy_stores_zero_profit {L C : Type} (env : Env) (engine : Engine L)
    (w w1 : World L C) (req : Request) (uid : String) (body : Body) (acct : JsVal)
    (r : JsVal) (l : L)
    (hs : req.session = some uid) (hf : env.fault .userFindUnique = false) (hu : uid ∈ w.users)
    (hb : req.body = some body) (hm : missingRequired body = false)
    (ha : resolveAccount env w uid body.stockAccountId = .ok w1 acct)
    (ht : body.type = .str "BUY")
    (he : engine.processBuyTransaction w1.ledger (buyArgs uid acct body) = .returned r l) :
    ((POST env engine w req).world.transactions = w.transactions
      ∨ ∃ row, (POST env engine w req).world.transactions = w.transactions ++ [row]
          ∧ row.calculatedPl = .num 0)
    ∧ (∀ t, body.ticker = .str t → env.fault .transactionCreate = false →
        ∃ row, (POST env engine w req).world.transactions = w.transactions ++ [row]
          ∧ row.calculatedPl = .num 0) := by
  have hfr := resolveAccount_ok_frame ha
  have hP : POST env engine w req
      = persist env { w1 with ledger := l } uid acct body (body.fee.orDefault (.num 0))
          (body.taxRate.orDefault (.num 0)) (.num 0) [.buy (buyArgs uid acct body)] := by
    simp [POST, hs, hf, hu, hb, hm, ha, ht, he]
  rw [hP]
  refine ⟨?_, ?_⟩
  · rcases persist_transactions env { w1 with ledger := l } uid acct body
        (body.fee.orDefault (.num 0)) (body.taxRate.orDefault (.num 0)) (.num 0)
        [.buy (buyArgs uid acct body)] with h | ⟨row, h, hpl, -⟩
    · exact Or.inl (by rw [h]; exact hfr.1)
    · exact Or.inr ⟨row, by rw [h]; simp [hfr.1], hpl⟩
  · intro t htk hc
    obtain ⟨row, h, hpl, -⟩ := persist_created env { w1 with ledger := l } uid acct body
        (body.fee.orDefault (.num 0)) (body.taxRate.orDefault (.num 0)) (.num 0)
        [.buy (buyArgs uid acct body)] t htk hc
    exact ⟨row, by rw [h]; simp [hfr.1], hpl⟩

/-- C2 at a concrete request: user `u1` buys against `sampleEngine`. -/
theorem POST_buy_stores_zero_profit_witness :
    ((POST calmEnv sampleEngine world1 (req1 (body1 "BUY"))).world.transactions
        = world1.transactions
      ∨ ∃ row, (POST calmEnv sampleEngine world1 (req1 (body1 "BUY"))).world.transactions
            = world1.transactions ++ [row]
          ∧ row.calculatedPl = .num 0)
    ∧ (∀ t, (body1 "BUY").ticker = .str t → calmEnv.fault .transactionCreate = false →
        ∃ row, (POST calmEnv sampleEngine world1 (req1 (body1 "BUY"))).world.transactions
            = world1.transactions ++ [row]
          ∧ row.calculatedPl = .num 0) :=
  POST_buy_stores_zero_profit calmEnv sampleEngine world1 world1
    (req1 (body1 "BUY")) "u1" (body1 "BUY") (.str "acc1") .obj [.num 100, .num 10]
    rfl rfl (by decide) rfl (by decide) (by decide) rfl rfl

/-! ## Engine failures -/

/-- C3: when the engine call of a POST (buy or sell, after the handler's
checks) throws an error with message `m`, the response is HTTP 400 with the
message `'Error processing cost basis: ' + m`, and the transaction table is
unchanged. -/
theorem POST_engine_error_is_400 {L C : Type} (env : Env) (engine : Engine L)
    (w w1 : World L C) (req : Request) (uid : String) (body : Body) (acct : JsVal)
    (m : String) (l : L)
    (hs : req.session = some uid) (hf : env.fault .userFindUnique = false) (hu : uid ∈ w.users)
    (hb : req.body = some body) (hm : missingRequired body = false)
    (ha : resolveAccount env w uid body.stockAccountId = .ok w1 acct)
    (he : (body.type = .str "BUY"
            ∧ engine.processBuyTransaction w1.ledger (buyArgs uid acct body) = .threw m l)
        ∨ (body.type = .str "SELL"
            ∧ engine.processSellTransaction w1.ledger (sellArgs uid acct body) = .threw m l)) :
    (POST env engine w req).outcome = .json 400 ("Error processing cost basis: " ++ m)
      ∧ (POST env engine w req).outcome.status = some 400
      ∧ (POST env engine w req).world.transactions = w.transactions := by
  have hfr := resolveAccount_ok_frame ha
  rcases he with ⟨ht, he⟩ | ⟨ht, he⟩
  · simp [POST, hs, hf, hu, hb, hm, ha, ht, he, hfr.1, Outcome.status]
  · simp [POST, hs, hf, hu, hb, hm, ha, ht, he, hfr.1, Outcome.status]

/-- C3 at a concrete request: a sell on an empty ledger. -/
theorem POST_engine_error_is_400_witness :
    (POST calmEnv sampleEngine world0 (req1 (body1 "SELL"))).outcome
        = .json 400 ("Error processing cost basis: " ++ "Insufficient shares")
      ∧ (POST calmEnv sampleEngine world0 (req1 (body1 "SELL"))).outcome.status = some 400
      ∧ (POST calmEnv sampleEngine world0 (req1 (body1 "SELL"))).world.transactions
          = world0.transactions :=
  POST_engine_error_is_400 calmEnv sampleEngine world0 world0
    (req1 (body1 "SELL")) "u1" (body1 "SELL") (.str "acc1") "Insufficient shares" []
    rfl rfl (by decide) rfl (by decide) (by decide) (Or.inr ⟨rfl, rfl⟩)

/-! ## Atomicity with the row's creation -/

/-- C4, as stated, fails: `sampleEngine` accepts the buy and appends a lot, the
creation of the row is rejected, no row is stored, and the ledger keeps the new
lot. -/
theorem POST_create_failure_not_rolled_back :
    sampleEngine.processBuyTransaction world1.ledger (buyArgs "u1" (.str "acc1") (body1 "BUY"))
        = .returned .obj [.num 100, .num 10]
      ∧ createFailsEnv.fault .transactionCreate = true
      ∧ (POST createFailsEnv sampleEngine world1 (req1 (body1 "BUY"))).world.transactions
          = world1.transactions
      ∧ (POST createFailsEnv sampleEngine world1 (req1 (body1 "BUY"))).world.ledger
          ≠ world1.ledger := by
  decide

/-- C4, amended: when the engine call succeeded, leaving ledger `l`, and the
creation of the row then fails (the create call rejects, or the ticker is not a
string), no row is stored and the ledger after the request is `l`: the
engine's mutation is kept. -/
theorem POST_create_failure_keeps_engine_ledger {L C : Type} (env : Env) (engine : Engine L)
    (w w1 : World L C) (req : Request) (uid : String) (body : Body) (acct : JsVal) (l : L)
    (hs : req.session = some uid) (hf : env.fault .userFindUnique = false) (hu : uid ∈ w.users)
    (hb : req.body = some body) (hm : missingRequired body = false)
    (ha : resolveAccount env w uid body.stockAccountId = .ok w1 acct)
    (he : (body.type = .str "BUY"
            ∧ ∃ r, engine.processBuyTransaction w1.ledger (buyArgs uid acct body) = .returned r l)
        ∨ (body.type = .str "SELL"
            ∧ ∃ r, engine.processSellTransaction w1.ledger (sellArgs uid acct body)
                = .returned r l))
    (hfail : env.fault .transactionCreate = true ∨ ∀ t, body.ticker ≠ .str t) :
    (POST env engine w req).world.ledger = l
      ∧ (POST env engine w req).world.transactions = w.transactions := by
  have hfr := resolveAccount_ok_frame ha
  have hpersist : ∀ (pl : JsVal) (calls : List EngineCall),
      persist env { w1 with ledger := l } uid acct body (body.fee.orDefault (.num 0))
          (body.taxRate.orDefault (.num 0)) pl calls
        = ⟨.rejected, { w1 with ledger := l }, calls⟩ := by
    intro pl calls
    unfold persist
    rcases hfail with hc | hn
    · cases body.ticker <;> simp [hc]
    · cases hk : body.ticker <;> first | rfl | exact absurd hk (hn _)
  rcases he with ⟨ht, r, he⟩ | ⟨ht, r, he⟩
  · have hP : POST env engine w req
        = persist env { w1 with ledger := l } uid acct body (body.fee.orDefault (.num 0))
            (body.taxRate.orDefault (.num 0)) (.num 0) [.buy (buyArgs uid acct body)] := by
      simp [POST, hs, hf, hu, hb, hm, ha, ht, he]
    rw [hP, hpersist]
    exact ⟨rfl, hfr.1⟩
  · have hP : POST env engine w req
        = persist env { w1 with ledger := l } uid acct body (body.fee.orDefault (.num 0))
            (body.taxRate.orDefault (.num 0)) r.profitOrLoss
            [.sell (sellArgs uid acct body)] := by
      simp [POST, hs, hf, hu, hb, hm, ha, ht, he]
    rw [hP, hpersist]
    exact ⟨rfl, hfr.1⟩

/-- C4 amended, at the request of the counterexample. -/
theorem POST_create_failure_keeps_engine_ledger_witness :
    (POST createFailsEnv sampleEngine world1 (req1 (body1 "BUY"))).world.ledger
        = [.num 100, .num 10]
      ∧ (POST createFailsEnv sampleEngine world1 (req1 (body1 "BUY"))).world.transactions
          = world1.transactions :=
  POST_create_failure_keeps_engine_ledger createFailsEnv sampleEngine world1 world1
    (req1 (body1 "BUY")) "u1" (body1 "BUY") (.str "acc1") [.num 100, .num 10]
    rfl rfl (by decide) rfl (by decide) (by decide) (Or.inl ⟨rfl, .obj, rfl⟩) (Or.inl rfl)

/-! ## The type of a stored row -/

/-- C5 at a failing input: a body whose type is `'HOLD'` passes the presence
check, reaches neither engine branch, and is stored as a row of type `'HOLD'`
with `calculatedPl = null`; the response is 201. -/
theorem POST_stores_row_of_unknown_type :
    (POST calmEnv sampleEngine world1 (req1 (body1 "HOLD"))).world.transactions.map
        (fun row => (row.type, row.calculatedPl)) = [(.str "HOLD", .null)]
      ∧ (POST calmEnv sampleEngine world1 (req1 (body1 "HOLD"))).engineCalls = []
      ∧ (POST calmEnv sampleEngine world1 (req1 (body1 "HOLD"))).world.ledger = world1.ledger
      ∧ (POST calmEnv sampleEngine world1 (req1 (body1 "HOLD"))).outcome.status = some 201 := by
  decide

/-! ## The required-field check -/

/-- C6 at a failing input: a BUY with price 0 and every other field valid is
answered 400 "Missing required fields" by the required-field check, although
the price is supplied, and never reaches the engine. -/
theorem POST_price_zero_not_passed_to_engine :
    (POST calmEnv sampleEngine world1 (req1 (body2 (.num 10) (.num 0)))).outcome
        = .json 400
            "Missing required fields: ticker, type, quantity, price, and transactionDate are required"
      ∧ (POST calmEnv sampleEngine world1 (req1 (body2 (.num 10) (.num 0)))).engineCalls = [] := by
  decide

/-- C7, as stated, fails: a BUY of quantity -5 at price -2 is not rejected; the
engine is invoked with these values, appends a lot of -5 shares, and the
response is 201. -/
theorem POST_negative_quantity_reaches_engine :
    (POST calmEnv sampleEngine world1 (req1 (body2 (.num (-5)) (.num (-2))))).engineCalls
        = [.buy (buyArgs "u1" (.str "acc1") (body2 (.num (-5)) (.num (-2))))]
      ∧ (POST calmEnv sampleEngine world1 (req1 (body2 (.num (-5)) (.num (-2))))).world.ledger
          = [.num 100, .num (-5)]
      ∧ (POST calmEnv sampleEngine world1 (req1 (body2 (.num (-5)) (.num (-2))))).outcome.status
          = some 201 := by
  decide

/-- C7, amended: for an authenticated POST (user in the database, body decoded),
a quantity that is the number 0 is answered HTTP 400 before any engine call and
nothing changes; a negative quantity or price is not checked by the handler:
with both numbers nonzero, the other required fields present and the account
resolved, a BUY or SELL is passed to the engine with that quantity and price. -/
theorem POST_zero_quantity_rejected_negative_passed {L C : Type} (env : Env)
    (engine : Engine L) (w : World L C) (req : Request) (uid : String) (body : Body)
    (hs : req.session = some uid) (hf : env.fault .userFindUnique = false) (hu : uid ∈ w.users)
    (hb : req.body = some body) :
    (body.quantity = .num 0 →
        (POST env engine w req).outcome.status = some 400
          ∧ (POST env engine w req).engineCalls = []
          ∧ (POST env engine w req).world = w)
      ∧ (∀ (q p : ℚ) (w1 : World L C) (acct : JsVal),
          body.quantity = .num q → body.price = .num p → (q < 0 ∨ p < 0) → q ≠ 0 → p ≠ 0 →
          body.ticker.truthy = true → body.transactionDate.truthy = true →
          resolveAccount env w uid body.stockAccountId = .ok w1 acct →
          (body.type = .str "BUY" →
              (POST env engine w req).engineCalls = [.buy (buyArgs uid acct body)]
                ∧ (buyArgs uid acct body).quantity = .num q
                ∧ (buyArgs uid acct body).price = .num p)
            ∧ (body.type = .str "SELL" →
              (POST env engine w req).engineCalls = [.sell (sellArgs uid acct body)]
                ∧ (sellArgs uid acct body).quantity = .num q
                ∧ (sellArgs uid acct body).price = .num p)) := by
  refine ⟨?_, ?_⟩
  · intro hq
    have hm : missingRequired body = true := by
      simp [missingRequired, hq, JsVal.truthy]
    simp [POST, hs, hf, hu, hb, hm, Outcome.status]
  · intro q p w1 acct hq hp _ hq0 hp0 htk hd ha
    refine ⟨?_, ?_⟩
    · intro ht
      have hm : missingRequired body = false := by
        have h1 : body.quantity.truthy = true := by simp [hq, JsVal.truthy, hq0]
        have h2 : body.price.truthy = true := by simp [hp, JsVal.truthy, hp0]
        have h3 : body.type.truthy = true := by rw [ht]; decide
        simp [missingRequired, htk, hd, h1, h2, h3]
      refine ⟨?_, by simp [buyArgs, hq], by simp [buyArgs, hp]⟩
      cases he : engine.processBuyTransaction w1.ledger (buyArgs uid acct body) with
      | threw m l => simp [POST, hs, hf, hu, hb, hm, ha, ht, he]
      | returned r l =>
        have hP : POST env engine w req
            = persist env { w1 with ledger := l } uid acct body (body.fee.orDefault (.num 0))
                (body.taxRate.orDefault (.num 0)) (.num 0) [.buy (buyArgs uid acct body)] := by
          simp [POST, hs, hf, hu, hb, hm, ha, ht, he]
        rw [hP]
        exact (persist_ledger _ _ _ _ _ _ _ _ _).2.2
    · intro ht
      have hm : missingRequired body = false := by
        have h1 : body.quantity.truthy = true := by simp [hq, JsVal.truthy, hq0]
        have h2 : body.price.truthy = true := by simp [hp, JsVal.truthy, hp0]
        have h3 : body.type.truthy = true := by rw [ht]; decide
        simp [missingRequired, htk, hd, h1, h2, h3]
      refine ⟨?_, by simp [sellArgs, hq], by simp [sellArgs, hp]⟩
      cases he : engine.processSellTransaction w1.ledger (sellArgs uid acct body) with
      | threw m l => simp [POST, hs, hf, hu, hb, hm, ha, ht, he]
      | returned r l =>
        have hP : POST env engine w req
            = persist env { w1 with ledger := l } uid acct body (body.fee.orDefault (.num 0))
                (body.taxRate.orDefault (.num 0)) r.profitOrLoss
                [.sell (sellArgs uid acct body)] := by
          simp [POST, hs, hf, hu, hb, hm, ha, ht, he]
        rw [hP]
        exact (persist_ledger _ _ _ _ _ _ _ _ _).2.2

/-- C7 amended, at two concrete requests: a quantity of 0, and the request of
the counterexample. -/
theorem POST_zero_quantity_rejected_negative_passed_witness :
    ((POST calmEnv sampleEngine world1 (req1 (body2 (.num 0) (.num 50)))).outcome.status = some 400
        ∧ (POST calmEnv sampleEngine world1 (req1 (body2 (.num 0) (.num 50)))).engineCalls = []
        ∧ (POST calmEnv sampleEngine world1 (req1 (body2 (.num 0) (.num 50)))).world = world1)
      ∧ ((POST calmEnv sampleEngine world1 (req1 (body2 (.num (-5)) (.num (-2))))).engineCalls
            = [.buy (buyArgs "u1" (.str "acc1") (body2 (.num (-5)) (.num (-2))))]
          ∧ (buyArgs "u1" (.str "acc1") (body2 (.num (-5)) (.num (-2)))).quantity = .num (-5)
          ∧ (buyArgs "u1" (.str "acc1") (body2 (.num (-5)) (.num (-2)))).price = .num (-2)) :=
  ⟨(POST_zero_quantity_rejected_negative_passed calmEnv sampleEngine world1
      (req1 (body2 (.num 0) (.num 50))) "u1" (body2 (.num 0) (.num 50))
      rfl rfl (by decide) rfl).1 rfl,
    ((POST_zero_quantity_rejected_negative_passed calmEnv sampleEngine world1
      (req1 (body2 (.num (-5)) (.num (-2)))) "u1" (body2 (.num (-5)) (.num (-2)))
      rfl rfl (by decide) rfl).2 (-5) (-2) world1 (.str "acc1") rfl rfl
        (Or.inl (by decide)) (by decide) (by decide) (by decide) (by decide) (by decide)).1 rfl⟩

/-- C8: an authenticated POST (user in the database, body decoded) in which one
of ticker, type, quantity, price, transactionDate is undefined, null or the
empty string is answered HTTP 400; the engine is not invoked and the state is
the one before the request, so no stock account and no transaction row are
created and the cache is unchanged. -/
theorem POST_missing_field_rejected {L C : Type} (env : Env) (engine : Engine L)
    (w : World L C) (req : Request) (uid : String) (body : Body)
    (hs : req.session = some uid) (hf : env.fault .userFindUnique = false) (hu : uid ∈ w.users)
    (hb : req.body = some body)
    (hmiss : ∃ v ∈ [body.ticker, body.type, body.quantity, body.price, body.transactionDate],
      v = .undefined ∨ v = .null ∨ v = .str "") :
    (POST env engine w req).outcome.status = some 400
      ∧ (POST env engine w req).engineCalls = []
      ∧ (POST env engine w req).world = w
      ∧ (POST env engine w req).world.stockAccounts = w.stockAccounts
      ∧ (POST env engine w req).world.transactions = w.transactions
      ∧ (POST env engine w req).world.cache = w.cache := by
  have hfalsy : ∀ v : JsVal, (v = .undefined ∨ v = .null ∨ v = .str "") → v.truthy = false := by
    intro v hv
    rcases hv with rfl | rfl | rfl <;> decide
  have hm : missingRequired body = true := by
    obtain ⟨v, hv, hv0⟩ := hmiss
    have h0 := hfalsy v hv0
    simp only [List.mem_cons, List.mem_singleton, List.not_mem_nil, or_false] at hv
    rcases hv with rfl | rfl | rfl | rfl | rfl <;> simp [missingRequired, h0]
  simp [POST, hs, hf, hu, hb, hm, Outcome.status]

/-- C8 at a concrete request: the ticker is the empty string. -/
theorem POST_missing_field_rejected_witness :
    (POST calmEnv sampleEngine world1 (req1 { body1 "BUY" with ticker := .str "" })).outcome.status
        = some 400
      ∧ (POST calmEnv sampleEngine world1 (req1 { body1 "BUY" with ticker := .str "" })).engineCalls
          = []
      ∧ (POST calmEnv sampleEngine world1 (req1 { body1 "BUY" with ticker := .str "" })).world
          = world1
      ∧ (POST calmEnv sampleEngine world1
          (req1 { body1 "BUY" with ticker := .str "" })).world.stockAccounts = world1.stockAccounts
      ∧ (POST calmEnv sampleEngine world1
          (req1 { body1 "BUY" with ticker := .str "" })).world.transactions = world1.transactions
      ∧ (POST calmEnv sampleEngine world1
          (req1 { body1 "BUY" with ticker := .str "" })).world.cache = world1.cache :=
  POST_missing_field_rejected calmEnv sampleEngine world1
    (req1 { body1 "BUY" with ticker := .str "" }) "u1" { body1 "BUY" with ticker := .str "" }
    rfl rfl (by decide) rfl ⟨.str "", by decide, Or.inr (Or.inr rfl)⟩

/-! ## The shape of a run -/

theorem orDefault_eq (v d : JsVal) : v.orDefault d = if v = .undefined then d else v := by
  cases v <;> simp [JsVal.orDefault]

theorem resolveAccount_ok_owned {L C : Type} {env : Env} {w w1 : World L C} {uid : String}
    {sid acct : JsVal} (hstr : sid.truthy = true → ∃ s, sid = .str s)
    (h : resolveAccount env w uid sid = .ok w1 acct) :
    ∃ a ∈ w1.stockAccounts, JsVal.str a.id = acct ∧ a.userId = uid := by
  unfold resolveAccount at h
  split at h
  · split at h
    · exact absurd h (by simp)
    · split at h
      · split at h
        · exact absurd h (by simp)
        · simp only [Resolved.ok.injEq] at h
          obtain ⟨rfl, rfl⟩ := h
          exact ⟨newDefaultAccount env uid, by simp, rfl, rfl⟩
      · rename_i first rest hacc
        simp only [Resolved.ok.injEq] at h
        obtain ⟨rfl, rfl⟩ := h
        have hmem : ((first :: rest).find? (fun a => decide (a.name = defaultAccountName))).getD first
            ∈ accountsOf w.stockAccounts uid := by
          rw [hacc]
          cases hfind : (first :: rest).find? (fun a => decide (a.name = defaultAccountName)) with
          | none => simp
          | some a => exact List.mem_of_find?_eq_some hfind
        unfold accountsOf at hmem
        rw [List.mem_insertionSort, List.mem_filter] at hmem
        exact ⟨_, hmem.1, rfl, by simpa using hmem.2⟩
  · split at h
    · exact absurd h (by simp)
    · split at h
      · exact absurd h (by simp)
      · rename_i htruthy _ _ a hfind
        simp only [Resolved.ok.injEq] at h
        obtain ⟨rfl, rfl⟩ := h
        obtain ⟨s, rfl⟩ := hstr (by simpa using htruthy)
        have hp := List.find?_some hfind
        have hmem := List.mem_of_find?_eq_some hfind
        simp only [idMatches, Bool.and_eq_true, decide_eq_true_eq] at hp
        exact ⟨a, hmem, by rw [hp.1], hp.2⟩

theorem POST_shape {L C : Type} (env : Env) (engine : Engine L) (w : World L C)
    (req : Request) (uid : String) (body : Body)
    (hs : req.session = some uid) (hb : req.body = some body) :
    ((POST env engine w req).engineCalls = []
        ∧ (POST env engine w req).world.transactions = w.transactions
        ∧ ∀ w1 acct, resolveAccount env w uid body.stockAccountId = .ok w1 acct →
            ¬ (env.fault .userFindUnique = false ∧ uid ∈ w.users ∧ missingRequired body = false))
      ∨ ∃ w1 acct, resolveAccount env w uid body.stockAccountId = .ok w1 acct
          ∧ (POST env engine w req).world.stockAccounts = w1.stockAccounts
          ∧ ((POST env engine w req).engineCalls = []
              ∨ (POST env engine w req).engineCalls = [.buy (buyArgs uid acct body)]
              ∨ (POST env engine w req).engineCalls = [.sell (sellArgs uid acct body)])
          ∧ ((POST env engine w req).world.transactions = w.transactions
              ∨ ∃ row, (POST env engine w req).world.transactions = w.transactions ++ [row]
                  ∧ row.fee = body.fee.orDefault (.num 0)
                  ∧ row.taxRate = body.taxRate.orDefault (.num 0)
                  ∧ row.stockAccountId = acct ∧ row.userId = uid) := by
  by_cases hf : env.fault .userFindUnique = true
  · exact Or.inl (by simp [POST, hs, hf])
  by_cases hu : uid ∈ w.users
  swap
  · exact Or.inl (by simp [POST, hs, hf, hu])
  by_cases hm : missingRequired body = true
  · exact Or.inl (by simp [POST, hs, hf, hu, hb, hm])
  cases ha : resolveAccount env w uid body.stockAccountId with
  | threw => exact Or.inl (by simp [POST, hs, hf, hu, hb, hm, ha])
  | invalid => exact Or.inl (by simp [POST, hs, hf, hu, hb, hm, ha])
  | ok w1 acct =>
    have hfr := resolveAccount_ok_frame ha
    refine Or.inr ⟨w1, acct, rfl, ?_⟩
    have key : ∀ (l : L) (pl : JsVal) (calls : List EngineCall),
        POST env engine w req
          = persist env { w1 with ledger := l } uid acct body (body.fee.orDefault (.num 0))
              (body.taxRate.orDefault (.num 0)) pl calls →
        (POST env engine w req).world.stockAccounts = w1.stockAccounts
          ∧ (POST env engine w req).engineCalls = calls
          ∧ ((POST env engine w req).world.transactions = w.transactions
              ∨ ∃ row, (POST env engine w req).world.transactions = w.transactions ++ [row]
                  ∧ row.fee = body.fee.orDefault (.num 0)
                  ∧ row.taxRate = body.taxRate.orDefault (.num 0)
                  ∧ row.stockAccountId = acct ∧ row.userId = uid) := by
      intro l pl calls hP
      rw [hP]
      have hl := persist_ledger env { w1 with ledger := l } uid acct body
        (body.fee.orDefault (.num 0)) (body.taxRate.orDefault (.num 0)) pl calls
      refine ⟨hl.2.1, hl.2.2, ?_⟩
      rcases persist_transactions env { w1 with ledger := l } uid acct body
          (body.fee.orDefault (.num 0)) (body.taxRate.orDefault (.num 0)) pl calls
        with h | ⟨row, h, -, h2, h3, h4, h5, -⟩
      · exact Or.inl (by rw [h]; exact hfr.1)
      · exact Or.inr ⟨row, by rw [h]; simp [hfr.1], h2, h3, h4, h5⟩
    by_cases htb : body.type = .str "BUY"
    · cases he : engine.processBuyTransaction w1.ledger (buyArgs uid acct body) with
      | threw m l =>
        simp [POST, hs, hf, hu, hb, hm, ha, htb, he, hfr.1]
      | returned r l =>
        have h := key l (.num 0) [.buy (buyArgs uid acct body)]
          (by simp [POST, hs, hf, hu, hb, hm, ha, htb, he])
        exact ⟨h.1, Or.inr (Or.inl h.2.1), h.2.2⟩
    · by_cases hts : body.type = .str "SELL"
      · cases he : engine.processSellTransaction w1.ledger (sellArgs uid acct body) with
        | threw m l =>
          simp [POST, hs, hf, hu, hb, hm, ha, hts, he, hfr.1]
        | returned r l =>
          have h := key l r.profitOrLoss [.sell (sellArgs uid acct body)]
            (by simp [POST, hs, hf, hu, hb, hm, ha, hts, he])
          exact ⟨h.1, Or.inr (Or.inr h.2.1), h.2.2⟩
      · have h := key w1.ledger .null []
          (by simp [POST, hs, hf, hu, hb, hm, ha, htb, hts])
        exact ⟨h.1, Or.inl h.2.1, h.2.2⟩

/-! ## Fee and tax-rate defaults -/

/-- C9: in every POST with a session and a decoded body, each engine call made
and the row stored (if any) carry, for `fee` and for `taxRate`, the number 0
when the body omits the field and the supplied value unchanged otherwise
(`processBuyTransaction` takes no tax rate). -/
theorem POST_fee_taxRate_defaults {L C : Type} (env : Env) (engine : Engine L)
    (w : World L C) (req : Request) (uid : String) (body : Body)
    (hs : req.session = some uid) (hb : req.body = some body) :
    (∀ a, EngineCall.buy a ∈ (POST env engine w req).engineCalls →
        a.fee = if body.fee = .undefined then .num 0 else body.fee)
      ∧ (∀ a, EngineCall.sell a ∈ (POST env engine w req).engineCalls →
          a.fee = (if body.fee = .undefined then .num 0 else body.fee)
            ∧ a.taxRate = if body.taxRate = .undefined then .num 0 else body.taxRate)
      ∧ ((POST env engine w req).world.transactions = w.transactions
          ∨ ∃ row, (POST env engine w req).world.transactions = w.transactions ++ [row]
              ∧ row.fee = (if body.fee = .undefined then .num 0 else body.fee)
              ∧ row.taxRate = if body.taxRate = .undefined then .num 0 else body.taxRate) := by
  rcases POST_shape env engine w req uid body hs hb with
    ⟨hc, ht, -⟩ | ⟨w1, acct, -, -, hc, ht⟩
  · refine ⟨?_, ?_, Or.inl ht⟩
    · intro a ha
      rw [hc] at ha
      exact absurd ha (List.not_mem_nil _)
    · intro a ha
      rw [hc] at ha
      exact absurd ha (List.not_mem_nil _)
  · refine ⟨?_, ?_, ?_⟩
    · intro a ha
      rcases hc with hc | hc | hc <;> rw [hc] at ha <;> simp at ha
      subst ha
      simp [buyArgs, orDefault_eq]
    · intro a ha
      rcases hc with hc | hc | hc <;> rw [hc] at ha <;> simp at ha
      subst ha
      simp [sellArgs, orDefault_eq]
    · rcases ht with ht | ⟨row, ht, h1, h2, -⟩
      · exact Or.inl ht
      · exact Or.inr ⟨row, ht, by rw [h1, orDefault_eq], by rw [h2, orDefault_eq]⟩

/-- C9 at a concrete request: a SELL that omits `fee` and supplies
`taxRate = 1`; the engine call and the stored row carry fee 0 and tax rate 1. -/
theorem POST_fee_taxRate_defaults_witness :
    ((∀ a, EngineCall.buy a ∈ (POST calmEnv sampleEngine world1 (req1 body3)).engineCalls →
        a.fee = if body3.fee = .undefined then .num 0 else body3.fee)
      ∧ (∀ a, EngineCall.sell a ∈ (POST calmEnv sampleEngine world1 (req1 body3)).engineCalls →
          a.fee = (if body3.fee = .undefined then .num 0 else body3.fee)
            ∧ a.taxRate = if body3.taxRate = .undefined then .num 0 else body3.taxRate)
      ∧ ((POST calmEnv sampleEngine world1 (req1 body3)).world.transactions
            = world1.transactions
          ∨ ∃ row, (POST calmEnv sampleEngine world1 (req1 body3)).world.transactions
                = world1.transactions ++ [row]
              ∧ row.fee = (if body3.fee = .undefined then .num 0 else body3.fee)
              ∧ row.taxRate = if body3.taxRate = .undefined then .num 0 else body3.taxRate))
      ∧ (POST calmEnv sampleEngine world1 (req1 body3)).engineCalls.map
          (fun call => match call with
            | .buy a => (a.fee, JsVal.undefined)
            | .sell a => (a.fee, a.taxRate)) = [(.num 0, .num 1)]
      ∧ (POST calmEnv sampleEngine world1 (req1 body3)).world.transactions.map
          (fun row => (row.fee, row.taxRate)) = [(.num 0, .num 1)] :=
  ⟨POST_fee_taxRate_defaults calmEnv sampleEngine world1 (req1 body3) "u1" body3 rfl rfl,
    by decide, by decide⟩

/-! ## Account ownership -/

/-- For a `stockAccountId` that is absent or a string: the account id given to
the engine, and the one on the stored row, is the id of a stock account whose
`userId` is the session user's id; and a string that is no account of the
session user gives no engine call and no row, and (the earlier checks passed,
the ownership query answering) HTTP 400. -/
theorem POST_string_account_id_owned {L C : Type} (env : Env) (engine : Engine L)
    (w : World L C) (req : Request) (uid : String) (body : Body)
    (hs : req.session = some uid) (hb : req.body = some body)
    (hstr : body.stockAccountId.truthy = true → ∃ s, body.stockAccountId = .str s) :
    (∀ call ∈ (POST env engine w req).engineCalls,
        ∃ a ∈ (POST env engine w req).world.stockAccounts,
          JsVal.str a.id = call.stockAccountId ∧ a.userId = uid)
      ∧ ((POST env engine w req).world.transactions = w.transactions
          ∨ ∃ row, (POST env engine w req).world.transactions = w.transactions ++ [row]
              ∧ row.userId = uid
              ∧ ∃ a ∈ (POST env engine w req).world.stockAccounts,
                  JsVal.str a.id = row.stockAccountId ∧ a.userId = uid)
      ∧ (body.stockAccountId.truthy = true →
          (∀ a ∈ w.stockAccounts, ¬ (JsVal.str a.id = body.stockAccountId ∧ a.userId = uid)) →
          (POST env engine w req).engineCalls = []
            ∧ (POST env engine w req).world.transactions = w.transactions
            ∧ (env.fault .userFindUnique = false → uid ∈ w.users →
                missingRequired body = false → env.fault .accountFindFirst = false →
                (POST env engine w req).outcome
                  = .json 400 "Invalid stock account or account does not belong to user")) := by
  refine ⟨?_, ?_, ?_⟩
  · rcases POST_shape env engine w req uid body hs hb with
      ⟨hc, -, -⟩ | ⟨w1, acct, ha, hsa, hc, -⟩
    · intro call hcall
      rw [hc] at hcall
      exact absurd hcall (List.not_mem_nil _)
    · obtain ⟨a, hmem, hid, huid⟩ := resolveAccount_ok_owned hstr ha
      intro call hcall
      rcases hc with hc | hc | hc <;> rw [hc] at hcall <;> simp at hcall
      · subst hcall
        exact ⟨a, by rw [hsa]; exact hmem, by simpa [EngineCall.stockAccountId, buyArgs] using hid,
          huid⟩
      · subst hcall
        exact ⟨a, by rw [hsa]; exact hmem,
          by simpa [EngineCall.stockAccountId, sellArgs] using hid, huid⟩
  · rcases POST_shape env engine w req uid body hs hb with
      ⟨-, ht, -⟩ | ⟨w1, acct, ha, hsa, -, ht⟩
    · exact Or.inl ht
    · obtain ⟨a, hmem, hid, huid⟩ := resolveAccount_ok_owned hstr ha
      rcases ht with ht | ⟨row, ht, -, -, h3, h4⟩
      · exact Or.inl ht
      · exact Or.inr ⟨row, ht, h4, a, by rw [hsa]; exact hmem, by rw [h3]; exact hid, huid⟩
  · intro hsup hnot
    obtain ⟨sv, hsv⟩ := hstr hsup
    have hres : resolveAccount env w uid body.stockAccountId
        = if env.fault .accountFindFirst = true then .threw else .invalid := by
      unfold resolveAccount
      have hnone : w.stockAccounts.find?
          (fun a => idMatches env body.stockAccountId a.id && decide (a.userId = uid)) = none := by
        rw [List.find?_eq_none]
        intro a ha
        have := hnot a ha
        rw [hsv] at this ⊢
        simpa [idMatches] using this
      simp only [hsup, Bool.not_true, Bool.false_eq_true, if_false, hnone]
    rcases POST_shape env engine w req uid body hs hb with
      ⟨hc, ht, -⟩ | ⟨w1, acct, ha, -, -, -⟩
    · refine ⟨hc, ht, ?_⟩
      intro hf hu hm hff
      have hinv : resolveAccount env w uid body.stockAccountId = .invalid := by
        rw [hres]; simp [hff]
      simp [POST, hs, hf, hu, hb, hm, hinv]
    · rw [hres] at ha
      split at ha <;> exact absurd ha (by simp)

/-- C10 at a failing input: user `u1`, owner of `acc1`, posts a BUY whose
`stockAccountId` is the object `{ not: 'zzz' }`. The ownership query reads it as
a filter and finds `acc1`, so the request is not answered 400; the engine is
called with the object as account id, which is the id of no stock account, and
the ledger gets a new lot (the creation of the row then rejects the object). -/
theorem POST_object_account_id_reaches_engine :
    resolveAccount notZzzEnv world2 "u1" body5.stockAccountId = .ok world2 .obj
      ∧ (POST notZzzEnv sampleEngine world2 (req1 body5)).engineCalls
          = [.buy (buyArgs "u1" .obj body5)]
      ∧ (POST notZzzEnv sampleEngine world2 (req1 body5)).engineCalls.map
          EngineCall.stockAccountId = [.obj]
      ∧ (∀ a ∈ (POST notZzzEnv sampleEngine world2 (req1 body5)).world.stockAccounts,
          JsVal.str a.id ≠ .obj)
      ∧ (POST notZzzEnv sampleEngine world2 (req1 body5)).world.ledger
          = [.num 100, .num 10]
      ∧ (POST notZzzEnv sampleEngine world2 (req1 body5)).outcome.status ≠ some 400 := by
  decide

/-! ## Profit statistics -/

theorem sellCount_pos_iff (L : List Tx) :
    (L.filter (fun tx => tx.type = "SELL")).length ≠ 0 ↔ ∃ tx ∈ L, tx.type = "SELL" := by
  rw [Ne, List.length_eq_zero, List.filter_eq_nil_iff]
  simp

theorem trichotomy_count (l : List Tx) :
    (l.filter (fun tx => tx.pl > 0)).length + (l.filter (fun tx => tx.pl < 0)).length
      + (l.filter (fun tx => tx.pl = 0)).length = l.length := by
  induction l with
  | nil => rfl
  | cons x xs ih =>
    simp only [gt_iff_lt] at ih ⊢
    rcases lt_trichotomy x.pl 0 with h | h | h
    · have h1 : ¬ 0 < x.pl := not_lt.mpr h.le
      have h2 : ¬ x.pl = 0 := h.ne
      simp [List.filter_cons, h, h1, h2]
      omega
    · have h1 : ¬ 0 < x.pl := by rw [h]; exact lt_irrefl _
      have h2 : ¬ x.pl < 0 := by rw [h]; exact lt_irrefl _
      simp [List.filter_cons, h, h1, h2]
      omega
    · have h1 : ¬ x.pl < 0 := not_lt.mpr h.le
      have h2 : ¬ x.pl = 0 := h.ne'
      simp [List.filter_cons, h, h1, h2]
      omega

theorem mathRound_near (x : ℚ) : |mathRound x - x| ≤ 1 / 2 := by
  unfold mathRound
  have h1 := Int.floor_le (x + 1 / 2)
  have h2 := Int.lt_floor_add_one (x + 1 / 2)
  rw [abs_le]
  constructor <;> linarith

theorem mathRound_mono {x y : ℚ} (h : x ≤ y) : mathRound x ≤ mathRound y := by
  unfold mathRound
  exact_mod_cast Int.floor_mono (by linarith)

theorem mathRound_intCast (n : ℤ) : mathRound n = n := by
  unfold mathRound
  have : ⌊(n : ℚ) + 1 / 2⌋ = n := by
    rw [Int.floor_eq_iff]
    constructor <;> norm_num
  rw [this]

/-! ### The arithmetic of doubles -/

theorem bitLength_zero (fuel : Nat) : bitLength fuel 0 = 0 := by
  cases fuel <;> simp [bitLength]

theorem bitLength_spec : ∀ (fuel n : Nat), n ≠ 0 → n ≤ fuel →
    2 ^ bitLength fuel n ≤ 2 * n ∧ n < 2 ^ bitLength fuel n := by
  intro fuel
  induction fuel with
  | zero => intro n h0 hle; omega
  | succ fuel ih =>
    intro n h0 hle
    simp only [bitLength, h0, if_false]
    by_cases h2 : n / 2 = 0
    · have h1 : n = 1 := by omega
      subst h1
      simp [bitLength_zero]
    · obtain ⟨ha, hb⟩ := ih (n / 2) h2 (by omega)
      rw [pow_succ]
      constructor <;> omega

theorem binaryExponent_spec (x : ℚ) (hx : x ≠ 0) :
    (2 : ℚ) ^ binaryExponent x ≤ |x| ∧ |x| < (2 : ℚ) ^ (binaryExponent x + 1) := by
  have hnum : x.num.natAbs ≠ 0 := by
    simpa using (Rat.num_ne_zero.mpr hx)
  have hden : x.den ≠ 0 := x.den_nz
  obtain ⟨ha1, ha2⟩ := bitLength_spec _ _ hnum (le_refl _)
  obtain ⟨hb1, hb2⟩ := bitLength_spec _ _ hden (le_refl _)
  have habs : |x| = (x.num.natAbs : ℚ) / (x.den : ℚ) := by
    conv_lhs => rw [← Rat.num_div_den x]
    rw [abs_div, Nat.abs_cast, Nat.cast_natAbs, Int.cast_abs]
  set a := x.num.natAbs
  set b := x.den
  set A := bitLength a a
  set B := bitLength b b
  have hbpos : (0 : ℚ) < (b : ℚ) := by exact_mod_cast Nat.pos_of_ne_zero hden
  have ha1q : (2 : ℚ) ^ A ≤ 2 * a := by exact_mod_cast ha1
  have ha2q : (a : ℚ) < 2 ^ A := by exact_mod_cast ha2
  have hb1q : (2 : ℚ) ^ B ≤ 2 * b := by exact_mod_cast hb1
  have hb2q : (b : ℚ) < 2 ^ B := by exact_mod_cast hb2
  have hBpos : (0 : ℚ) < 2 ^ B := by positivity
  have hd : (2 : ℚ) ^ ((A : ℤ) - (B : ℤ)) = 2 ^ A / 2 ^ B := by
    rw [zpow_sub₀ (by norm_num : (2 : ℚ) ≠ 0), zpow_natCast, zpow_natCast]
  unfold binaryExponent
  split_ifs with h
  · refine ⟨h, ?_⟩
    rw [zpow_add_one₀ (by norm_num : (2 : ℚ) ≠ 0), hd, habs, div_lt_iff₀ hbpos]
    have : 2 ^ A / 2 ^ B * 2 * (b : ℚ) = 2 ^ A * (2 * b) / 2 ^ B := by ring
    rw [this, lt_div_iff₀ hBpos]
    nlinarith
  · rw [not_le] at h
    constructor
    · rw [zpow_sub_one₀ (by norm_num : (2 : ℚ) ≠ 0), hd, habs, le_div_iff₀ hbpos]
      have : 2 ^ A / 2 ^ B * 2⁻¹ * (b : ℚ) = 2 ^ A * b / (2 * 2 ^ B) := by
        field_simp
        ring
      rw [this, div_le_iff₀ (by positivity)]
      nlinarith
    · simpa using h

theorem roundHalfEven_floor_le (q : ℚ) : ⌊q⌋ ≤ roundHalfEven q := by
  unfold roundHalfEven
  split_ifs <;> omega

theorem roundHalfEven_le_floor_add_one (q : ℚ) : roundHalfEven q ≤ ⌊q⌋ + 1 := by
  unfold roundHalfEven
  split_ifs <;> omega

theorem roundHalfEven_near (q : ℚ) : |(roundHalfEven q : ℚ) - q| ≤ 1 / 2 := by
  have h1 := Int.floor_le q
  have h2 := Int.lt_floor_add_one q
  unfold roundHalfEven
  rw [abs_le]
  split_ifs with ha hb hc
  · constructor <;> linarith
  · push_cast; constructor <;> linarith
  · have : q - ⌊q⌋ = 1 / 2 := le_antisymm (not_lt.mp hb) (not_lt.mp ha)
    constructor <;> linarith
  · have : q - ⌊q⌋ = 1 / 2 := le_antisymm (not_lt.mp hb) (not_lt.mp ha)
    push_cast; constructor <;> linarith

theorem roundHalfEven_intCast (n : ℤ) : roundHalfEven (n : ℚ) = n := by
  unfold roundHalfEven
  simp

theorem roundHalfEven_mono {q r : ℚ} (h : q ≤ r) : roundHalfEven q ≤ roundHalfEven r := by
  rcases (Int.floor_mono h).lt_or_eq with hlt | heq
  · have h1 := roundHalfEven_le_floor_add_one q
    have h2 := roundHalfEven_floor_le r
    omega
  · unfold roundHalfEven
    rw [← heq]
    split_ifs <;> first | omega | (exfalso; linarith)


theorem ulp_pos (x : ℚ) : 0 < ulp x := by
  unfold ulp
  positivity

theorem two_zpow_le {a b : ℤ} (h : a ≤ b) : (2 : ℚ) ^ a ≤ 2 ^ b :=
  zpow_le_zpow_right₀ (by norm_num) h

theorem binaryExponent_le_of_abs_le {x y : ℚ} (hx : x ≠ 0) (hy : y ≠ 0) (h : |x| ≤ |y|) :
    binaryExponent x ≤ binaryExponent y := by
  have h1 := (binaryExponent_spec x hx).1
  have h2 := (binaryExponent_spec y hy).2
  have h3 : (2 : ℚ) ^ binaryExponent x < 2 ^ (binaryExponent y + 1) := by linarith
  have := (zpow_lt_zpow_iff_right₀ (by norm_num : (1 : ℚ) < 2)).mp h3
  omega

theorem doubleExponent_le_of_abs_le {x y : ℚ} (hx : x ≠ 0) (hy : y ≠ 0) (h : |x| ≤ |y|) :
    doubleExponent x ≤ doubleExponent y := by
  unfold doubleExponent
  have := binaryExponent_le_of_abs_le hx hy h
  omega

theorem abs_lt_two_zpow (x : ℚ) (hx : x ≠ 0) : |x| < (2 : ℚ) ^ (doubleExponent x + 1) := by
  have h2 := (binaryExponent_spec x hx).2
  have : (2 : ℚ) ^ (binaryExponent x + 1) ≤ 2 ^ (doubleExponent x + 1) :=
    two_zpow_le (by unfold doubleExponent; omega)
  linarith

theorem two_zpow_le_abs (x : ℚ) (hx : x ≠ 0) (h : -1022 < doubleExponent x) :
    (2 : ℚ) ^ doubleExponent x ≤ |x| := by
  have h1 := (binaryExponent_spec x hx).1
  have : doubleExponent x = binaryExponent x := by
    unfold doubleExponent at h ⊢
    omega
  rw [this]
  exact h1

theorem ulp_mul (x : ℚ) : (2 : ℚ) ^ (53 : ℕ) * ulp x = 2 ^ (doubleExponent x + 1) := by
  unfold ulp
  rw [← zpow_natCast, ← zpow_add₀ (by norm_num : (2 : ℚ) ≠ 0)]
  congr 1
  push_cast
  ring

theorem ulp_mul52 (x : ℚ) : (2 : ℚ) ^ (52 : ℕ) * ulp x = 2 ^ doubleExponent x := by
  unfold ulp
  rw [← zpow_natCast, ← zpow_add₀ (by norm_num : (2 : ℚ) ≠ 0)]
  congr 1
  push_cast
  ring

theorem toDouble_zero : toDouble 0 = 0 := by
  simp [toDouble]

theorem toDouble_nonneg {x : ℚ} (h : 0 ≤ x) : 0 ≤ toDouble x := by
  unfold toDouble
  split_ifs with h0
  · exact le_refl _
  · have hu := ulp_pos x
    have : roundHalfEven 0 ≤ roundHalfEven (x / ulp x) := roundHalfEven_mono (by positivity)
    rw [show (0 : ℚ) = ((0 : ℤ) : ℚ) by norm_num, roundHalfEven_intCast] at this
    have : (0 : ℚ) ≤ (roundHalfEven (x / ulp x) : ℚ) := by exact_mod_cast this
    positivity

theorem toDouble_nonpos {x : ℚ} (h : x ≤ 0) : toDouble x ≤ 0 := by
  unfold toDouble
  split_ifs with h0
  · exact le_refl _
  · have hu := ulp_pos x
    have hq : x / ulp x ≤ 0 := div_nonpos_of_nonpos_of_nonneg h hu.le
    have : roundHalfEven (x / ulp x) ≤ roundHalfEven 0 := roundHalfEven_mono hq
    rw [show (0 : ℚ) = ((0 : ℤ) : ℚ) by norm_num, roundHalfEven_intCast] at this
    have : (roundHalfEven (x / ulp x) : ℚ) ≤ 0 := by exact_mod_cast this
    exact mul_nonpos_of_nonpos_of_nonneg this hu.le

theorem toDouble_le_two_zpow {x : ℚ} (hx : 0 < x) : toDouble x ≤ 2 ^ (doubleExponent x + 1) := by
  have hu := ulp_pos x
  have h1 := abs_lt_two_zpow x hx.ne'
  rw [abs_of_pos hx, ← ulp_mul] at h1
  have hq : x / ulp x ≤ ((2 ^ 53 : ℤ) : ℚ) := by
    rw [div_le_iff₀ hu]
    push_cast
    linarith
  have := roundHalfEven_mono hq
  rw [roundHalfEven_intCast] at this
  have hc : (roundHalfEven (x / ulp x) : ℚ) ≤ 2 ^ 53 := by exact_mod_cast this
  rw [toDouble, if_neg hx.ne', ← ulp_mul]
  exact mul_le_mul_of_nonneg_right hc hu.le

theorem two_zpow_le_toDouble {x : ℚ} (hx : 0 < x) (h : -1022 < doubleExponent x) :
    2 ^ doubleExponent x ≤ toDouble x := by
  have hu := ulp_pos x
  have h1 := two_zpow_le_abs x hx.ne' h
  rw [abs_of_pos hx, ← ulp_mul52] at h1
  have hq : ((2 ^ 52 : ℤ) : ℚ) ≤ x / ulp x := by
    rw [le_div_iff₀ hu]
    push_cast
    linarith
  have := roundHalfEven_mono hq
  rw [roundHalfEven_intCast] at this
  have hc : (2 : ℚ) ^ 52 ≤ (roundHalfEven (x / ulp x) : ℚ) := by exact_mod_cast this
  rw [toDouble, if_neg hx.ne', ← ulp_mul52]
  exact mul_le_mul_of_nonneg_right hc hu.le

theorem neg_two_zpow_le_toDouble {x : ℚ} (hx : x < 0) :
    -(2 ^ (doubleExponent x + 1)) ≤ toDouble x := by
  have hu := ulp_pos x
  have h1 := abs_lt_two_zpow x hx.ne
  rw [abs_of_neg hx, ← ulp_mul] at h1
  have hq : ((-(2 ^ 53) : ℤ) : ℚ) ≤ x / ulp x := by
    rw [le_div_iff₀ hu]
    push_cast
    linarith
  have := roundHalfEven_mono hq
  rw [roundHalfEven_intCast] at this
  have hc : -(2 : ℚ) ^ 53 ≤ (roundHalfEven (x / ulp x) : ℚ) := by exact_mod_cast this
  rw [toDouble, if_neg hx.ne, ← ulp_mul, ← neg_mul]
  exact mul_le_mul_of_nonneg_right hc hu.le

theorem toDouble_le_neg_two_zpow {x : ℚ} (hx : x < 0) (h : -1022 < doubleExponent x) :
    toDouble x ≤ -(2 ^ doubleExponent x) := by
  have hu := ulp_pos x
  have h1 := two_zpow_le_abs x hx.ne h
  rw [abs_of_neg hx, ← ulp_mul52] at h1
  have hq : x / ulp x ≤ ((-(2 ^ 52) : ℤ) : ℚ) := by
    rw [div_le_iff₀ hu]
    push_cast
    linarith
  have := roundHalfEven_mono hq
  rw [roundHalfEven_intCast] at this
  have hc : (roundHalfEven (x / ulp x) : ℚ) ≤ -(2 : ℚ) ^ 52 := by exact_mod_cast this
  rw [toDouble, if_neg hx.ne, ← ulp_mul52, ← neg_mul]
  exact mul_le_mul_of_nonneg_right hc hu.le

theorem toDouble_mono {x y : ℚ} (h : x ≤ y) : toDouble x ≤ toDouble y := by
  rcases lt_trichotomy x 0 with hx | hx | hx
  · rcases lt_or_le y 0 with hy | hy
    · have habs : |y| ≤ |x| := by rw [abs_of_neg hx, abs_of_neg hy]; linarith
      rcases (doubleExponent_le_of_abs_le hy.ne hx.ne habs).lt_or_eq with hlt | heq
      · have h1 := toDouble_le_neg_two_zpow hx (by unfold doubleExponent at hlt ⊢; omega)
        have h2 := neg_two_zpow_le_toDouble hy
        have h3 : (2 : ℚ) ^ (doubleExponent y + 1) ≤ 2 ^ doubleExponent x :=
          two_zpow_le (by omega)
        linarith
      · have hu : ulp y = ulp x := by unfold ulp; rw [heq]
        rw [toDouble, toDouble, if_neg hx.ne, if_neg hy.ne, hu]
        have hq : x / ulp x ≤ y / ulp x := div_le_div_of_nonneg_right h (ulp_pos x).le
        have := roundHalfEven_mono hq
        have hc : (roundHalfEven (x / ulp x) : ℚ) ≤ (roundHalfEven (y / ulp x) : ℚ) := by
          exact_mod_cast this
        exact mul_le_mul_of_nonneg_right hc (ulp_pos x).le
    · exact le_trans (toDouble_nonpos hx.le) (toDouble_nonneg hy)
  · subst hx
    rw [toDouble_zero]
    exact toDouble_nonneg h
  · have hy : 0 < y := lt_of_lt_of_le hx h
    have habs : |x| ≤ |y| := by rw [abs_of_pos hx, abs_of_pos hy]; exact h
    rcases (doubleExponent_le_of_abs_le hx.ne' hy.ne' habs).lt_or_eq with hlt | heq
    · have h1 := toDouble_le_two_zpow hx
      have h2 := two_zpow_le_toDouble hy (by unfold doubleExponent at hlt ⊢; omega)
      have h3 : (2 : ℚ) ^ (doubleExponent x + 1) ≤ 2 ^ doubleExponent y :=
        two_zpow_le (by omega)
      linarith
    · have hu : ulp x = ulp y := by unfold ulp; rw [heq]
      rw [toDouble, toDouble, if_neg hx.ne', if_neg hy.ne', hu]
      have hq : x / ulp y ≤ y / ulp y := div_le_div_of_nonneg_right h (ulp_pos y).le
      have := roundHalfEven_mono hq
      have hc : (roundHalfEven (x / ulp y) : ℚ) ≤ (roundHalfEven (y / ulp y) : ℚ) := by
        exact_mod_cast this
      exact mul_le_mul_of_nonneg_right hc (ulp_pos y).le


theorem toDouble_of_quot_int {x : ℚ} (m : ℤ) (h : x / ulp x = m) : toDouble x = x := by
  unfold toDouble
  split_ifs with h0
  · exact h0.symm
  · rw [h, roundHalfEven_intCast, ← h]
    exact div_mul_cancel₀ x (ulp_pos x).ne'

theorem toDouble_intCast (n : ℤ) (h : |n| ≤ 2 ^ 53) : toDouble (n : ℚ) = n := by
  by_cases h0 : n = 0
  · subst h0; simp [toDouble_zero]
  have hx : (n : ℚ) ≠ 0 := by exact_mod_cast h0
  have habs1 : (1 : ℚ) ≤ |(n : ℚ)| := by
    have : 1 ≤ |n| := Int.one_le_abs h0
    exact_mod_cast this
  have habs2 : |(n : ℚ)| ≤ 2 ^ (53 : ℤ) := by
    have : ((|n| : ℤ) : ℚ) ≤ ((2 ^ 53 : ℤ) : ℚ) := by exact_mod_cast h
    rw [Int.cast_abs] at this
    rw [show ((2 : ℚ) ^ (53 : ℤ)) = ((2 ^ 53 : ℤ) : ℚ) by norm_num]
    exact this
  obtain ⟨s1, s2⟩ := binaryExponent_spec (n : ℚ) hx
  have he0 : 0 ≤ binaryExponent (n : ℚ) := by
    have h3 : (2 : ℚ) ^ (0 : ℤ) < 2 ^ (binaryExponent (n : ℚ) + 1) := by
      rw [zpow_zero]; linarith
    have := (zpow_lt_zpow_iff_right₀ (by norm_num : (1 : ℚ) < 2)).mp h3
    omega
  have he53 : binaryExponent (n : ℚ) ≤ 53 := by
    have h3 : (2 : ℚ) ^ binaryExponent (n : ℚ) ≤ 2 ^ (53 : ℤ) := le_trans s1 habs2
    exact (zpow_le_zpow_iff_right₀ (by norm_num : (1 : ℚ) < 2)).mp h3
  have hde : doubleExponent (n : ℚ) = binaryExponent (n : ℚ) := by
    unfold doubleExponent; omega
  rcases he53.lt_or_eq with hlt | heq
  · have hk : ((52 - binaryExponent (n : ℚ)).toNat : ℤ) = 52 - binaryExponent (n : ℚ) :=
      Int.toNat_of_nonneg (by omega)
    apply toDouble_of_quot_int (n * 2 ^ (52 - binaryExponent (n : ℚ)).toNat)
    have hu : ulp (n : ℚ) = ((2 : ℚ) ^ (52 - binaryExponent (n : ℚ)).toNat)⁻¹ := by
      unfold ulp
      rw [hde, ← zpow_natCast, hk, ← zpow_neg]
      congr 1
      ring
    rw [hu]
    push_cast
    rw [div_inv_eq_mul]
  · have hu : ulp (n : ℚ) = 2 := by
      unfold ulp
      rw [hde, heq]
      norm_num
    have hpow : (2 : ℚ) ^ (53 : ℤ) ≤ |(n : ℚ)| := by rw [← heq]; exact s1
    have habs : |(n : ℚ)| = 2 ^ (53 : ℤ) := le_antisymm habs2 hpow
    rcases abs_choice (n : ℚ) with hc | hc
    · apply toDouble_of_quot_int (2 ^ 52)
      rw [hu, ← hc, habs]
      norm_num
    · apply toDouble_of_quot_int (-(2 ^ 52))
      have : (n : ℚ) = -(2 ^ (53 : ℤ)) := by rw [← habs, hc, neg_neg]
      rw [hu, this]
      norm_num

theorem toDouble_near_ulp (x : ℚ) : |toDouble x - x| ≤ ulp x / 2 := by
  have hu := ulp_pos x
  unfold toDouble
  split_ifs with h0
  · subst h0
    simp only [sub_zero, abs_zero]
    positivity
  · have h1 := roundHalfEven_near (x / ulp x)
    have e : (roundHalfEven (x / ulp x) : ℚ) * ulp x - x
        = ((roundHalfEven (x / ulp x) : ℚ) - x / ulp x) * ulp x := by
      field_simp
    rw [e, abs_mul, abs_of_pos hu]
    calc |(roundHalfEven (x / ulp x) : ℚ) - x / ulp x| * ulp x
        ≤ 1 / 2 * ulp x := mul_le_mul_of_nonneg_right h1 hu.le
      _ = ulp x / 2 := by ring

theorem ulp_le (x : ℚ) (hx : x ≠ 0) : ulp x ≤ |x| / 2 ^ 52 + 1 / 2 ^ 1074 := by
  have s1 := (binaryExponent_spec x hx).1
  have hpos : (0 : ℚ) ≤ |x| / 2 ^ 52 := by positivity
  have hpos2 : (0 : ℚ) ≤ 1 / 2 ^ 1074 := by positivity
  by_cases h : -1022 ≤ binaryExponent x
  · have hde : doubleExponent x = binaryExponent x := by
      unfold doubleExponent; omega
    have : ulp x = 2 ^ binaryExponent x / 2 ^ 52 := by
      unfold ulp
      rw [hde, zpow_sub₀ (by norm_num : (2 : ℚ) ≠ 0)]
      norm_num
    rw [this]
    have : (2 : ℚ) ^ binaryExponent x / 2 ^ 52 ≤ |x| / 2 ^ 52 :=
      div_le_div_of_nonneg_right s1 (by positivity)
    linarith
  · have hde : doubleExponent x = -1022 := by
      unfold doubleExponent; omega
    have : ulp x = 1 / 2 ^ 1074 := by
      unfold ulp
      rw [hde]
      norm_num
    rw [this]
    linarith

theorem toDouble_near (x : ℚ) : |toDouble x - x| ≤ |x| / 2 ^ 53 + 1 / 2 ^ 1075 := by
  by_cases hx : x = 0
  · subst hx
    rw [toDouble_zero]
    simp
  · have h1 := toDouble_near_ulp x
    have h2 := ulp_le x hx
    have e : |x| / 2 ^ 53 + 1 / 2 ^ 1075 = (|x| / 2 ^ 52 + 1 / 2 ^ 1074) / 2 := by ring
    rw [e]
    linarith

theorem toDouble_le_intCast {x : ℚ} (n : ℤ) (hn : |n| ≤ 2 ^ 53) (h : x ≤ n) :
    toDouble x ≤ n := by
  have := toDouble_mono h
  rwa [toDouble_intCast n hn] at this

theorem toDouble_near_of_le {x B : ℚ} (hB : 1 ≤ B) (h : |x| ≤ B) :
    |toDouble x - x| ≤ B / 2 ^ 52 := by
  have h1 := toDouble_near x
  have h2 : |x| / 2 ^ 53 ≤ B / 2 ^ 53 := div_le_div_of_nonneg_right h (by positivity)
  have h3 : (1 : ℚ) / 2 ^ 1075 ≤ 1 / 2 ^ 53 := by
    apply one_div_le_one_div_of_le (by positivity)
    exact pow_le_pow_right₀ (by norm_num) (by norm_num)
  have h4 : (1 : ℚ) / 2 ^ 53 ≤ B / 2 ^ 53 := div_le_div_of_nonneg_right hB (by positivity)
  have e : B / 2 ^ 52 = B / 2 ^ 53 + B / 2 ^ 53 := by ring
  linarith

/-! ### The statistics -/

/-- C18: `calculateProfitStats` gives the same result on a list and on that
list with every non-SELL transaction removed, whatever the removed rows
hold. -/
theorem calculateProfitStats_ignores_non_sell (L : List Tx) (f : ℚ) :
    calculateProfitStats L f
      = calculateProfitStats (L.filter (fun tx => tx.type = "SELL")) f := by
  simp [calculateProfitStats, List.filter_filter]

/-- C19: on a list with at least one SELL, the result has a
`breakEvenTransactions` count `b`, the profitable, unprofitable and break-even
counts add up to `totalTransactions`, which is the number of SELL rows, and `b`
counts the SELL rows whose `calculatedPl` is null or 0. -/
theorem calculateProfitStats_counts_partition (L : List Tx) (f : ℚ)
    (h : ∃ tx ∈ L, tx.type = "SELL") :
    ∃ b, (calculateProfitStats L f).breakEvenTransactions = some b
      ∧ (calculateProfitStats L f).profitableTransactions
          + (calculateProfitStats L f).unprofitableTransactions + b
          = (calculateProfitStats L f).totalTransactions
      ∧ (calculateProfitStats L f).totalTransactions
          = L.countP (fun tx => tx.type = "SELL")
      ∧ b = L.countP (fun tx => tx.type = "SELL"
              ∧ (tx.calculatedPl = none ∨ tx.calculatedPl = some 0)) := by
  have hne := (sellCount_pos_iff L).mpr h
  refine ⟨((L.filter (fun tx => tx.type = "SELL")).filter (fun tx => tx.pl = 0)).length, ?_, ?_, ?_, ?_⟩
  · simp [calculateProfitStats, hne]
  · simp only [calculateProfitStats, hne, if_false]
    exact trichotomy_count _
  · simp only [calculateProfitStats, hne, if_false]
    rw [List.countP_eq_length_filter]
  · rw [List.filter_filter, List.countP_eq_length_filter]
    congr 1
    apply List.filter_congr
    intro tx _
    cases hpl : tx.calculatedPl <;> simp [Tx.pl, hpl, Bool.and_comm]

/-- C20, as stated, fails: of the 160 SELL rows of `sells160` 23 are
profitable, and the exact rate 14.375 rounds to 14.38. In the doubles of the
code `23 / 160 * 100 * 100` comes out just below 1437.5, `Math.round` gives
1437 and `successRate` is the double 14.37, more than half a hundredth away
from the rate. -/
theorem calculateProfitStats_successRate_double_rounding :
    (calculateProfitStats sells160 0).profitableTransactions = 23
      ∧ (calculateProfitStats sells160 0).totalTransactions = 160
      ∧ fmul (fmul (fdiv 23 160) 100) 100 < 14375 / 10
      ∧ (calculateProfitStats sells160 0).successRate = fdiv 1437 100
      ∧ mathRound (100 * 23 / 160 * 100) / 100 = 1438 / 100
      ∧ (calculateProfitStats sells160 0).successRate ≠ fdiv 1438 100
      ∧ 1 / 200 < |(calculateProfitStats sells160 0).successRate - 100 * 23 / 160| := by
  decide!

/-- C20, amended: with `n` the number of SELL rows and `p` the number of SELL
rows with a positive `calculatedPl`, `totalTransactions` is `n`,
`profitableTransactions` is `p`, and `successRate` is 0 when `n = 0` and
otherwise the double-precision value of `Math.round(p / n * 100 * 100) / 100`;
it is within `1/200 + 1/10^12` of `100 * p / n`, and it lies between 0 and
100. -/
theorem calculateProfitStats_successRate (L : List Tx) (f : ℚ) :
    (calculateProfitStats L f).totalTransactions = L.countP (fun tx => tx.type = "SELL")
      ∧ (calculateProfitStats L f).profitableTransactions
          = L.countP (fun tx => tx.type = "SELL" ∧ tx.pl > 0)
      ∧ (calculateProfitStats L f).successRate
          = (if L.countP (fun tx => tx.type = "SELL") = 0 then 0
             else fdiv (mathRound (fmul (fmul
                    (fdiv (L.countP (fun tx => tx.type = "SELL" ∧ tx.pl > 0) : ℚ)
                      (L.countP (fun tx => tx.type = "SELL") : ℚ)) 100) 100)) 100)
      ∧ |(calculateProfitStats L f).successRate
            - (if L.countP (fun tx => tx.type = "SELL") = 0 then 0
               else 100 * (L.countP (fun tx => tx.type = "SELL" ∧ tx.pl > 0) : ℚ)
                    / (L.countP (fun tx => tx.type = "SELL") : ℚ))| ≤ 1 / 200 + 1 / 10 ^ 12
      ∧ 0 ≤ (calculateProfitStats L f).successRate
      ∧ (calculateProfitStats L f).successRate ≤ 100 := by
  have hn : L.countP (fun tx => tx.type = "SELL")
      = (L.filter (fun tx => tx.type = "SELL")).length := List.countP_eq_length_filter _ _
  have hp : L.countP (fun tx => tx.type = "SELL" ∧ tx.pl > 0)
      = ((L.filter (fun tx => tx.type = "SELL")).filter (fun tx => tx.pl > 0)).length := by
    rw [List.filter_filter, List.countP_eq_length_filter]
    congr 1
    apply List.filter_congr
    intro tx _
    simp [Bool.and_comm]
  rw [hn, hp]
  by_cases hne : (L.filter (fun tx => tx.type = "SELL")).length = 0
  · have hnil : L.filter (fun tx => tx.type = "SELL") = [] := List.length_eq_zero.mp hne
    simp only [calculateProfitStats, hnil, List.length_nil, if_true, List.filter_nil, sub_self,
      abs_zero, le_refl, true_and]
    norm_num
  · have hpos : 0 < (L.filter (fun tx => tx.type = "SELL")).length := Nat.pos_of_ne_zero hne
    have hq : (0 : ℚ) < ((L.filter (fun tx => tx.type = "SELL")).length : ℚ) := by
      exact_mod_cast hpos
    have hle : (((L.filter (fun tx => tx.type = "SELL")).filter (fun tx => tx.pl > 0)).length : ℚ)
        ≤ ((L.filter (fun tx => tx.type = "SELL")).length : ℚ) := by
      exact_mod_cast List.length_filter_le _ _
    have hp0 : (0 : ℚ)
        ≤ (((L.filter (fun tx => tx.type = "SELL")).filter (fun tx => tx.pl > 0)).length : ℚ) := by
      exact_mod_cast Nat.zero_le _
    simp only [calculateProfitStats, hne, if_false, hpos, if_true]
    set p : ℚ := (((L.filter (fun tx => tx.type = "SELL")).filter (fun tx => tx.pl > 0)).length : ℚ)
    set n : ℚ := ((L.filter (fun tx => tx.type = "SELL")).length : ℚ)
    have hv0 : 0 ≤ p / n := by positivity
    have hv1 : p / n ≤ 1 := (div_le_one hq).mpr hle
    -- the first quotient
    have a0 : 0 ≤ fdiv p n := toDouble_nonneg hv0
    have a1 : fdiv p n ≤ 1 := by
      have := toDouble_le_intCast (x := p / n) 1 (by norm_num) (by simpa using hv1)
      simpa [fdiv] using this
    have ae : |fdiv p n - p / n| ≤ 1 / 2 ^ 52 :=
      toDouble_near_of_le (le_refl 1) (by rw [abs_of_nonneg hv0]; exact hv1)
    -- times 100
    have b0 : 0 ≤ fmul (fdiv p n) 100 := toDouble_nonneg (by positivity)
    have b1 : fmul (fdiv p n) 100 ≤ 100 := by
      have := toDouble_le_intCast (x := fdiv p n * 100) 100 (by norm_num)
        (by push_cast; linarith)
      simpa [fmul] using this
    have be : |fmul (fdiv p n) 100 - fdiv p n * 100| ≤ 100 / 2 ^ 52 :=
      toDouble_near_of_le (by norm_num)
        (by rw [abs_of_nonneg (by positivity)]; linarith)
    -- times 100 again
    have c0 : 0 ≤ fmul (fmul (fdiv p n) 100) 100 := toDouble_nonneg (by positivity)
    have c1 : fmul (fmul (fdiv p n) 100) 100 ≤ 10000 := by
      have := toDouble_le_intCast (x := fmul (fdiv p n) 100 * 100) 10000 (by norm_num)
        (by push_cast; linarith)
      simpa [fmul] using this
    have ce : |fmul (fmul (fdiv p n) 100) 100 - fmul (fdiv p n) 100 * 100| ≤ 10000 / 2 ^ 52 :=
      toDouble_near_of_le (by norm_num)
        (by rw [abs_of_nonneg (by positivity)]; linarith)
    -- Math.round
    have d0 : 0 ≤ mathRound (fmul (fmul (fdiv p n) 100) 100) := by
      have := mathRound_mono c0
      rw [show (0 : ℚ) = ((0 : ℤ) : ℚ) by norm_num, mathRound_intCast] at this
      simpa using this
    have d1 : mathRound (fmul (fmul (fdiv p n) 100) 100) ≤ 10000 := by
      have := mathRound_mono c1
      rw [show (10000 : ℚ) = ((10000 : ℤ) : ℚ) by norm_num, mathRound_intCast] at this
      simpa using this
    have de := mathRound_near (fmul (fmul (fdiv p n) 100) 100)
    -- the last quotient
    have e0 : 0 ≤ fdiv (mathRound (fmul (fmul (fdiv p n) 100) 100)) 100 :=
      toDouble_nonneg (by positivity)
    have e1 : fdiv (mathRound (fmul (fmul (fdiv p n) 100) 100)) 100 ≤ 100 := by
      have := toDouble_le_intCast
        (x := mathRound (fmul (fmul (fdiv p n) 100) 100) / 100) 100 (by norm_num)
        (by push_cast; linarith)
      simpa [fdiv] using this
    have ee : |fdiv (mathRound (fmul (fmul (fdiv p n) 100) 100)) 100
        - mathRound (fmul (fmul (fdiv p n) 100) 100) / 100| ≤ 100 / 2 ^ 52 :=
      toDouble_near_of_le (by norm_num)
        (by rw [abs_of_nonneg (by positivity)]; linarith)
    refine ⟨trivial, trivial, trivial, ?_, e0, e1⟩
    have hr : 100 * p / n = p / n * 100 := by ring
    rw [hr]
    rw [abs_le] at ae be ce de ee ⊢
    have hsmall : (400 : ℚ) / 2 ^ 52 ≤ 1 / 10 ^ 12 := by norm_num
    have hpow : (0 : ℚ) < 1 / 2 ^ 52 := by positivity
    constructor <;> linarith [ae.1, ae.2, be.1, be.2, ce.1, ce.2, de.1, de.2, ee.1, ee.2]

/-- C19 at a concrete list: of the three SELL rows of `txs1` one is profitable,
one is a loss and one, with a null `calculatedPl`, is break-even. -/
theorem calculateProfitStats_counts_partition_witness :
    (∃ b, (calculateProfitStats txs1 2).breakEvenTransactions = some b
      ∧ (calculateProfitStats txs1 2).profitableTransactions
          + (calculateProfitStats txs1 2).unprofitableTransactions + b
          = (calculateProfitStats txs1 2).totalTransactions
      ∧ (calculateProfitStats txs1 2).totalTransactions
          = txs1.countP (fun tx => tx.type = "SELL")
      ∧ b = txs1.countP (fun tx => tx.type = "SELL"
              ∧ (tx.calculatedPl = none ∨ tx.calculatedPl = some 0)))
      ∧ (calculateProfitStats txs1 2).breakEvenTransactions = some 1
      ∧ (calculateProfitStats txs1 2).totalTransactions = 3 :=
  ⟨calculateProfitStats_counts_partition txs1 2 ⟨tx "a" "SELL" (some 5), by decide, rfl⟩,
    by decide!, by decide!⟩

/-- C15 at a failing input: with no SELL row and a fee total of 1/2 the
function returns `totalProfitLoss = -1/2`, not the rounding of `0 - 1/2`, which
is 0; with one SELL row the same fee total is rounded with the sum
(`5 - 1/2` gives 5). -/
theorem calculateProfitStats_no_sell_unrounded :
    (calculateProfitStats [] (1 / 2)).totalProfitLoss = -1 / 2
      ∧ mathRound (0 - 1 / 2) = 0
      ∧ (calculateProfitStats [] (1 / 2)).grossProfitLoss = 0
      ∧ (calculateProfitStats [tx "a" "SELL" (some 5)] (1 / 2)).totalProfitLoss
          = mathRound (5 - 1 / 2)
      ∧ (calculateProfitStats [tx "a" "SELL" (some 5)] (1 / 2)).totalProfitLoss = 5 := by
  decide!

/-! ## The FIFO walk of the specification's engine -/

theorem openLots_sorted (ledger : List PurchaseLot) (userId accountId ticker : String) :
    (openLots ledger userId accountId ticker).Sorted olderFirst :=
  List.sorted_insertionSort _ _

theorem openLots_mem {ledger : List PurchaseLot} {userId accountId ticker : String}
    {lot : PurchaseLot} :
    lot ∈ openLots ledger userId accountId ticker
      ↔ lot ∈ ledger ∧ lot.userId = userId ∧ lot.stockAccountId = accountId
          ∧ lot.ticker = ticker ∧ 0 < lot.quantityRemaining := by
  unfold openLots
  rw [List.mem_insertionSort, List.mem_filter]
  simp

theorem sum_remaining_nonneg (lots : List PurchaseLot)
    (hpos : ∀ lot ∈ lots, 0 < lot.quantityRemaining) :
    0 ≤ (lots.map (fun lot => lot.quantityRemaining)).sum := by
  induction lots with
  | nil => simp
  | cons x xs ih =>
    have hx := hpos x (List.mem_cons_self _ _)
    have hxs := ih (fun l hl => hpos l (List.mem_cons_of_mem _ hl))
    simp only [List.map_cons, List.sum_cons]
    linarith

theorem consumeLots_sum (lots : List PurchaseLot) (q : ℚ)
    (hpos : ∀ lot ∈ lots, 0 < lot.quantityRemaining) (h0 : 0 ≤ q)
    (hq : q ≤ (lots.map (fun lot => lot.quantityRemaining)).sum) :
    ((consumeLots lots q).map (fun c => c.quantityConsumedFromLot)).sum = q := by
  induction lots generalizing q with
  | nil =>
    simp only [List.map_nil, List.sum_nil] at hq
    simp [consumeLots]
    linarith
  | cons x xs ih =>
    have hx := hpos x (List.mem_cons_self _ _)
    have hxs : ∀ l ∈ xs, 0 < l.quantityRemaining := fun l hl => hpos l (List.mem_cons_of_mem _ hl)
    simp only [List.map_cons, List.sum_cons] at hq
    unfold consumeLots
    by_cases hle : q ≤ 0
    · simp [hle]; linarith
    · simp only [hle, if_false, List.map_cons, List.sum_cons]
      have hmin1 : min x.quantityRemaining q ≤ q := min_le_right _ _
      have hrest : q - min x.quantityRemaining q
          ≤ (xs.map (fun lot => lot.quantityRemaining)).sum := by
        rcases le_total x.quantityRemaining q with h | h
        · rw [min_eq_left h]; linarith
        · rw [min_eq_right h]; simp; exact sum_remaining_nonneg xs hxs
      rw [ih (q - min x.quantityRemaining q) hxs (by linarith) hrest]
      ring

theorem consumeLots_ne_nil_pos {lots : List PurchaseLot} {q : ℚ}
    (h : consumeLots lots q ≠ []) : 0 < q := by
  cases lots with
  | nil => simp [consumeLots] at h
  | cons x xs =>
    unfold consumeLots at h
    by_cases hle : q ≤ 0
    · simp [hle] at h
    · exact not_le.mp hle

theorem consumeLots_get (lots : List PurchaseLot) (q : ℚ)
    (hpos : ∀ lot ∈ lots, 0 < lot.quantityRemaining) (i : Nat) (c : SaleConsumption)
    (hc : (consumeLots lots q).get? i = some c) :
    ∃ lot, lots.get? i = some lot ∧ c.lotId = lot.id
      ∧ c.quantityConsumedFromLot
          = min lot.quantityRemaining
              (q - ((lots.take i).map (fun l => l.quantityRemaining)).sum)
      ∧ 0 < c.quantityConsumedFromLot
      ∧ c.costBasisPortion = c.quantityConsumedFromLot * lot.unitCost := by
  induction lots generalizing q i with
  | nil => simp [consumeLots] at hc
  | cons x xs ih =>
    have hx := hpos x (List.mem_cons_self _ _)
    have hxs : ∀ l ∈ xs, 0 < l.quantityRemaining := fun l hl => hpos l (List.mem_cons_of_mem _ hl)
    unfold consumeLots at hc
    by_cases hle : q ≤ 0
    · simp [hle] at hc
    · simp only [hle, if_false] at hc
      have hqpos : 0 < q := not_le.mp hle
      cases i with
      | zero =>
        simp only [List.get?_cons_zero, Option.some.injEq] at hc
        subst hc
        exact ⟨x, by simp, rfl, by simp, lt_min hx hqpos, rfl⟩
      | succ j =>
        simp only [List.get?_cons_succ] at hc
        have hne : consumeLots xs (q - min x.quantityRemaining q) ≠ [] := by
          intro h0
          rw [h0] at hc
          simp at hc
        have hrem := consumeLots_ne_nil_pos hne
        have hmin : min x.quantityRemaining q = x.quantityRemaining := by
          rcases le_total x.quantityRemaining q with h | h
          · exact min_eq_left h
          · rw [min_eq_right h] at hrem; simp at hrem
        obtain ⟨lot, hl, hid, hqc, hcpos, hcb⟩ := ih (q - min x.quantityRemaining q) hxs j hc
        refine ⟨lot, by simpa using hl, hid, ?_, hcpos, hcb⟩
        rw [hqc, hmin]
        simp only [List.take_succ_cons, List.map_cons, List.sum_cons]
        congr 1
        ring

theorem processSellTransaction_eq_ok (taxRule : ℚ → ℚ → ℚ → ℚ) (ledger : List PurchaseLot)
    (userId accountId ticker : String) (quantity price fee taxRate : ℚ) (date : Int)
    (hq : 0 < quantity)
    (ha : quantity ≤ ((openLots ledger userId accountId ticker).map
            (fun lot => lot.quantityRemaining)).sum) :
    processSellTransaction taxRule ledger userId accountId ticker quantity price fee taxRate date
      = .ok ({ profitOrLoss :=
                price * quantity - fee
                  - taxRule taxRate (price * quantity)
                      (((consumeLots (openLots ledger userId accountId ticker) quantity).map
                        (fun c => c.costBasisPortion)).sum)
                  - ((consumeLots (openLots ledger userId accountId ticker) quantity).map
                        (fun c => c.costBasisPortion)).sum
               consumptions := consumeLots (openLots ledger userId accountId ticker) quantity },
             decrementLots ledger
               (consumeLots (openLots ledger userId accountId ticker) quantity)) := by
  unfold processSellTransaction
  rw [if_neg (not_le.mpr hq), if_neg (not_lt.mpr ha)]

/-- C11 (against the engine modelled from the specification): a sell of a
positive quantity that the open lots of its (user, account, ticker) cover
succeeds; the open lots are walked in oldest-first order; the `i`-th
consumption is drawn from the `i`-th oldest open lot and takes
`min(lot.quantityRemaining, remainingToSell)`, where `remainingToSell` is the
sale quantity less what the older lots held; and the consumed quantities sum to
the sale quantity. With 100 shares at 10 bought at `t1` and 50 shares at 12
bought at `t2 > t1`, a sell of 120 consumes 100 from the first lot and 20 from
the second, leaving them with 0 and 30. -/
theorem processSellTransaction_fifo (taxRule : ℚ → ℚ → ℚ → ℚ) (ledger : List PurchaseLot)
    (userId accountId ticker : String) (quantity price fee taxRate : ℚ) (date : Int)
    (hq : 0 < quantity)
    (ha : quantity ≤ ((openLots ledger userId accountId ticker).map
            (fun lot => lot.quantityRemaining)).sum) :
    (openLots ledger userId accountId ticker).Sorted olderFirst
      ∧ (∃ out ledger',
          processSellTransaction taxRule ledger userId accountId ticker quantity price fee
              taxRate date = .ok (out, ledger')
            ∧ (out.consumptions.map (fun c => c.quantityConsumedFromLot)).sum = quantity
            ∧ ∀ i c, out.consumptions.get? i = some c →
                ∃ lot, (openLots ledger userId accountId ticker).get? i = some lot
                  ∧ c.lotId = lot.id
                  ∧ c.quantityConsumedFromLot
                      = min lot.quantityRemaining
                          (quantity - (((openLots ledger userId accountId ticker).take i).map
                              (fun l => l.quantityRemaining)).sum))
      ∧ (∀ t1 t2 : Int, t1 < t2 →
          ∃ out, processSellTransaction taxRule (fifoLedger t1 t2) "u1" "acc1" "VNM" 120 price fee
                taxRate date
              = .ok (out, [{ lot 2 50 12 t2 with quantityRemaining := 30 },
                           { lot 1 100 10 t1 with quantityRemaining := 0 }])
            ∧ out.consumptions.map (fun c => (c.lotId, c.quantityConsumedFromLot))
                = [(1, 100), (2, 20)]) := by
  have hpos : ∀ lot ∈ openLots ledger userId accountId ticker, 0 < lot.quantityRemaining :=
    fun lot hl => (openLots_mem.mp hl).2.2.2.2
  refine ⟨openLots_sorted _ _ _ _, ?_, ?_⟩
  · refine ⟨_, _, processSellTransaction_eq_ok taxRule ledger userId accountId ticker quantity
      price fee taxRate date hq ha, ?_, ?_⟩
    · exact consumeLots_sum _ _ hpos hq.le ha
    · intro i c hc
      obtain ⟨lot, h1, h2, h3, -⟩ := consumeLots_get _ _ hpos i c hc
      exact ⟨lot, h1, h2, h3⟩
  · intro t1 t2 ht
    have hsort : openLots (fifoLedger t1 t2) "u1" "acc1" "VNM"
        = [lot 1 100 10 t1, lot 2 50 12 t2] := by
      have h1 : ¬ olderFirst (lot 2 50 12 t2) (lot 1 100 10 t1) := by
        unfold olderFirst lot
        simp only [not_or, not_lt, not_and]
        exact ⟨ht.le, fun h => absurd h ht.ne'⟩
      have hf : (fifoLedger t1 t2).filter (fun l =>
          decide (l.userId = "u1" ∧ l.stockAccountId = "acc1" ∧ l.ticker = "VNM"
            ∧ 0 < l.quantityRemaining)) = [lot 2 50 12 t2, lot 1 100 10 t1] := by
        simp [fifoLedger, lot, List.filter_cons]
      unfold openLots
      rw [hf]
      simp [List.insertionSort, List.orderedInsert, h1]
    have hcons : consumeLots [lot 1 100 10 t1, lot 2 50 12 t2] 120
        = [⟨1, 100, 1000⟩, ⟨2, 20, 240⟩] := by
      norm_num [consumeLots, lot]
    have hsum : (120 : ℚ) ≤ ((openLots (fifoLedger t1 t2) "u1" "acc1" "VNM").map
        (fun l => l.quantityRemaining)).sum := by
      rw [hsort]; norm_num [lot]
    have hres := processSellTransaction_eq_ok taxRule (fifoLedger t1 t2) "u1" "acc1" "VNM" 120
      price fee taxRate date (by norm_num) hsum
    rw [hsort, hcons] at hres
    have hdec : decrementLots (fifoLedger t1 t2) [⟨1, 100, 1000⟩, ⟨2, 20, 240⟩]
        = [{ lot 2 50 12 t2 with quantityRemaining := 30 },
           { lot 1 100 10 t1 with quantityRemaining := 0 }] := by
      simp only [decrementLots, fifoLedger, lot, List.map_cons, List.map_nil]
      norm_num [List.find?]
    rw [hdec] at hres
    exact ⟨_, hres, by simp⟩

/-- C11 at the specification's example, with `t1 = 10` and `t2 = 20`. -/
theorem processSellTransaction_fifo_witness :
    ∃ out, processSellTransaction noTax (fifoLedger 10 20) "u1" "acc1" "VNM" 120 15 0 0 30
          = .ok (out, [{ lot 2 50 12 20 with quantityRemaining := 30 },
                       { lot 1 100 10 10 with quantityRemaining := 0 }])
      ∧ out.consumptions.map (fun c => (c.lotId, c.quantityConsumedFromLot))
          = [(1, 100), (2, 20)] :=
  (processSellTransaction_fifo noTax (fifoLedger 10 20) "u1" "acc1" "VNM" 120 15 0 0 30
    (by decide!) (by decide!)).2.2 10 20 (by decide)

/-! ## Insufficient inventory -/

/-- C12 (against the engine modelled from the specification): a sell whose
quantity exceeds the total `quantityRemaining` of the open lots of its (user,
account, ticker) fails with `InsufficientInventory`; the engine hands the
ledger back as it was, and a POST of that sell (checks passed, arguments
decoded) is answered 400 with ledger and transaction table unchanged. -/
theorem processSellTransaction_insufficient (taxRule : ℚ → ℚ → ℚ → ℚ)
    (parseDate : String → Option Int) (env : Env) {C : Type}
    (w w1 : World (List PurchaseLot) C) (req : Request) (uid : String) (body : Body)
    (accountId ticker d : String) (quantity price fee taxRate : ℚ) (date : Int)
    (hs : req.session = some uid) (hf : env.fault .userFindUnique = false) (hu : uid ∈ w.users)
    (hb : req.body = some body) (hm : missingRequired body = false)
    (ha : resolveAccount env w uid body.stockAccountId = .ok w1 (.str accountId))
    (ht : body.type = .str "SELL")
    (htk : body.ticker = .str ticker) (hqty : body.quantity = .num quantity)
    (hpr : body.price = .num price) (hfee : body.fee.orDefault (.num 0) = .num fee)
    (htax : body.taxRate.orDefault (.num 0) = .num taxRate)
    (hd : body.transactionDate = .str d) (hdate : parseDate d = some date)
    (hexceeds : ((openLots w.ledger uid accountId ticker).map
        (fun lot => lot.quantityRemaining)).sum < quantity) :
    processSellTransaction taxRule w.ledger uid accountId ticker quantity price fee taxRate date
        = .error .insufficientInventory
      ∧ (ledgerEngine taxRule parseDate).processSellTransaction w.ledger
            (sellArgs uid (.str accountId) body)
          = .threw "InsufficientInventory" w.ledger
      ∧ (POST env (ledgerEngine taxRule parseDate) w req).world.ledger = w.ledger
      ∧ (POST env (ledgerEngine taxRule parseDate) w req).world.transactions = w.transactions
      ∧ (POST env (ledgerEngine taxRule parseDate) w req).outcome.status = some 400 := by
  have hfr := resolveAccount_ok_frame ha
  have hnn : 0 ≤ ((openLots w.ledger uid accountId ticker).map
      (fun lot => lot.quantityRemaining)).sum :=
    sum_remaining_nonneg _ (fun lot hl => (openLots_mem.mp hl).2.2.2.2)
  have hcore : processSellTransaction taxRule w.ledger uid accountId ticker quantity price fee
      taxRate date = .error .insufficientInventory := by
    unfold processSellTransaction
    rw [if_neg (not_le.mpr (lt_of_le_of_lt hnn hexceeds)), if_pos hexceeds]
  have hcall : (ledgerEngine taxRule parseDate).processSellTransaction w.ledger
      (sellArgs uid (.str accountId) body) = .threw "InsufficientInventory" w.ledger := by
    simp [ledgerEngine, sellArgs, htk, hqty, hpr, hfee, htax, hd, hdate, hcore,
      EngineError.message]
  have hcall1 : (ledgerEngine taxRule parseDate).processSellTransaction w1.ledger
      (sellArgs uid (.str accountId) body) = .threw "InsufficientInventory" w.ledger := by
    rw [hfr.2.1]; exact hcall
  refine ⟨hcore, hcall, ?_, ?_, ?_⟩
  · simp [POST, hs, hf, hu, hb, hm, ha, ht, hcall1]
  · simp [POST, hs, hf, hu, hb, hm, ha, ht, hcall1, hfr.1]
  · simp [POST, hs, hf, hu, hb, hm, ha, ht, hcall1, Outcome.status]

/-- C12 at the specification's example: 150 shares across two lots, a sell of
200. -/
theorem processSellTransaction_insufficient_witness :
    processSellTransaction noTax world3.ledger "u1" "acc1" "VNM" 200 50 3 1 30
        = .error .insufficientInventory
      ∧ (ledgerEngine noTax day30).processSellTransaction world3.ledger
            (sellArgs "u1" (.str "acc1") { body1 "SELL" with quantity := .num 200 })
          = .threw "InsufficientInventory" world3.ledger
      ∧ (POST calmEnv (ledgerEngine noTax day30) world3
          (req1 { body1 "SELL" with quantity := .num 200 })).world.ledger = world3.ledger
      ∧ (POST calmEnv (ledgerEngine noTax day30) world3
          (req1 { body1 "SELL" with quantity := .num 200 })).world.transactions
          = world3.transactions
      ∧ (POST calmEnv (ledgerEngine noTax day30) world3
          (req1 { body1 "SELL" with quantity := .num 200 })).outcome.status = some 400 :=
  processSellTransaction_insufficient noTax day30 calmEnv world3 world3
    (req1 { body1 "SELL" with quantity := .num 200 }) "u1"
    { body1 "SELL" with quantity := .num 200 } "acc1" "VNM" "2024-01-02" 200 50 3 1 30
    rfl rfl (by decide) rfl (by decide) (by decide) rfl rfl rfl rfl rfl rfl rfl rfl (by decide!)

/-! ## Cache keys -/

theorem isInfix_append_left {α : Type} {l a : List α} (b : List α) (h : l <:+: a) :
    l <:+: a ++ b :=
  h.trans (List.prefix_append a b).isInfix

theorem isInfix_append_right {α : Type} {l b : List α} (a : List α) (h : l <:+: b) :
    l <:+: a ++ b :=
  h.trans (List.suffix_append a b).isInfix

theorem flatMap_jsonEscape_plain (cs : List Char) (h : ∀ c ∈ cs, jsonEscape c = [c]) :
    cs.flatMap jsonEscape = cs := by
  induction cs with
  | nil => rfl
  | cons c cs ih =>
    rw [List.flatMap_cons, h c (List.mem_cons_self _ _),
      ih (fun d hd => h d (List.mem_cons_of_mem _ hd))]
    rfl

theorem jsonString_includes (uid : String) (h : ∀ c ∈ uid.toList, jsonEscape c = [c]) :
    uid.toList <:+: (jsonString uid).toList := by
  unfold jsonString
  simp only [String.toList, String.data_append, flatMap_jsonEscape_plain uid.data h]
  exact List.infix_append _ _ _

theorem cacheKey_includes (env : GetEnv) (uid : String) (q : Query) (sortBy sortOrder : String)
    (page pageSize : Option Int) (h : ∀ c ∈ uid.toList, jsonEscape c = [c]) :
    includes (cacheKey env uid q sortBy sortOrder page pageSize) uid = true := by
  unfold includes cacheKey
  rw [decide_eq_true_eq]
  simp only [String.toList, String.data_append]
  iterate 23 apply isInfix_append_left
  exact isInfix_append_right _ (jsonString_includes uid h)

theorem recentCacheKey_includes (uid : String) : includes (recentCacheKey uid) uid = true := by
  unfold includes recentCacheKey
  rw [decide_eq_true_eq]
  simp only [String.toList, String.data_append]
  exact isInfix_append_left _ (isInfix_append_left _ (isInfix_append_right _ List.infix_rfl))

theorem cacheGet_none_of_excluded {C : Type} (cache : List (String × C)) (uid key : String)
    (hc : ∀ e ∈ cache, includes e.1 uid = false) (hk : includes key uid = true) :
    cacheGet cache key = none := by
  unfold cacheGet
  rw [Option.map_eq_none', List.find?_eq_none]
  intro e he heq
  simp only [decide_eq_true_eq] at heq
  have := hc e he
  rw [heq, hk] at this
  exact absurd this (by simp)

theorem persist_created_cache {L C : Type} (env : Env) (w : World L C) (uid : String)
    (acct : JsVal) (body : Body) (fee taxRate pl : JsVal) (calls : List EngineCall)
    (h : (persist env w uid acct body fee taxRate pl calls).outcome.status = some 201) :
    ∀ e ∈ (persist env w uid acct body fee taxRate pl calls).world.cache,
      includes e.1 uid = false := by
  unfold persist at h ⊢
  cases hk : body.ticker <;> simp only [hk] at h ⊢ <;> try (simp [Outcome.status] at h)
  by_cases hc : env.fault .transactionCreate = true
  · simp [hc, Outcome.status] at h
  · by_cases hl : env.fault .accountLookup = true
    · simp [hc, hl, Outcome.status] at h
    · intro e he
      simp only [hc, hl] at he
      simp only [Bool.false_eq_true, if_false, List.mem_filter, Bool.not_eq_true'] at he
      exact he.2

theorem POST_created_cache {L C : Type} (env : Env) (engine : Engine L) (w : World L C)
    (req : Request) (uid : String) (hs : req.session = some uid)
    (h : (POST env engine w req).outcome.status = some 201) :
    ∀ e ∈ (POST env engine w req).world.cache, includes e.1 uid = false := by
  by_cases hf : env.fault .userFindUnique = true
  · simp [POST, hs, hf, Outcome.status] at h
  by_cases hu : uid ∈ w.users
  swap
  · simp [POST, hs, hf, hu, Outcome.status] at h
  cases hb : req.body with
  | none => simp [POST, hs, hf, hu, hb, Outcome.status] at h
  | some body =>
    by_cases hm : missingRequired body = true
    · simp [POST, hs, hf, hu, hb, hm, Outcome.status] at h
    cases ha : resolveAccount env w uid body.stockAccountId with
    | threw => simp [POST, hs, hf, hu, hb, hm, ha, Outcome.status] at h
    | invalid => simp [POST, hs, hf, hu, hb, hm, ha, Outcome.status] at h
    | ok w1 acct =>
      by_cases htb : body.type = .str "BUY"
      · cases he : engine.processBuyTransaction w1.ledger (buyArgs uid acct body) with
        | threw m l => simp [POST, hs, hf, hu, hb, hm, ha, htb, he, Outcome.status] at h
        | returned r l =>
          have hP : POST env engine w req
              = persist env { w1 with ledger := l } uid acct body (body.fee.orDefault (.num 0))
                  (body.taxRate.orDefault (.num 0)) (.num 0) [.buy (buyArgs uid acct body)] := by
            simp [POST, hs, hf, hu, hb, hm, ha, htb, he]
          rw [hP] at h ⊢
          exact persist_created_cache _ _ _ _ _ _ _ _ _ h
      · by_cases hts : body.type = .str "SELL"
        · cases he : engine.processSellTransaction w1.ledger (sellArgs uid acct body) with
          | threw m l => simp [POST, hs, hf, hu, hb, hm, ha, hts, he, Outcome.status] at h
          | returned r l =>
            have hP : POST env engine w req
                = persist env { w1 with ledger := l } uid acct body (body.fee.orDefault (.num 0))
                    (body.taxRate.orDefault (.num 0)) r.profitOrLoss
                    [.sell (sellArgs uid acct body)] := by
              simp [POST, hs, hf, hu, hb, hm, ha, hts, he]
            rw [hP] at h ⊢
            exact persist_created_cache _ _ _ _ _ _ _ _ _ h
        · have hP : POST env engine w req
              = persist env w1 uid acct body (body.fee.orDefault (.num 0))
                  (body.taxRate.orDefault (.num 0)) .null [] := by
            simp [POST, hs, hf, hu, hb, hm, ha, htb, hts]
          rw [hP] at h ⊢
          exact persist_created_cache _ _ _ _ _ _ _ _ _ h

theorem mainPath_cases (env : GetEnv) (db : TxDb) (cache : List (String × CacheEntry))
    (uid : String) (q : Query) (sortBy sortOrder : String) (page pageSize : Option Int)
    (earlier : List FindManyArgs) :
    (mainPath env db cache uid q sortBy sortOrder page pageSize earlier).queries
        = earlier ++ [mainArgs env uid q sortBy sortOrder page pageSize]
      ∧ ((mainPath env db cache uid q sortBy sortOrder page pageSize earlier).outcome = .failed
        ∨ ∃ totalCount transactions,
            db.count (mainArgs env uid q sortBy sortOrder page pageSize).whereClause
                = some totalCount
              ∧ db.findMany (mainArgs env uid q sortBy sortOrder page pageSize)
                  = some transactions
              ∧ (mainPath env db cache uid q sortBy sortOrder page pageSize earlier).outcome
                  = .fresh
                      { transactions := transactions
                        totalCount := totalCount
                        page := page
                        pageSize := pageSize
                        totalPages := totalPages totalCount pageSize
                        profitStats := calculateProfitStats transactions
                          (getAccountFeesTotal env db uid q.stockAccountId q.dateFrom
                            q.dateTo).1 }) := by
  rcases hc : db.count (mainArgs env uid q sortBy sortOrder page pageSize).whereClause
    with _ | totalCount
  · simp [mainPath, hc]
  · rcases hf : db.findMany (mainArgs env uid q sortBy sortOrder page pageSize)
      with _ | transactions
    · simp [mainPath, hc, hf]
    · refine ⟨by simp [mainPath, hc, hf], Or.inr ⟨totalCount, transactions, rfl, rfl, ?_⟩⟩
      simp [mainPath, hc, hf]

theorem mainPath_not_cached (env : GetEnv) (db : TxDb) (cache : List (String × CacheEntry))
    (uid : String) (q : Query) (sortBy sortOrder : String) (page pageSize : Option Int)
    (earlier : List FindManyArgs) (data : GetResult) :
    (mainPath env db cache uid q sortBy sortOrder page pageSize earlier).outcome
      ≠ .cached data := by
  rcases (mainPath_cases env db cache uid q sortBy sortOrder page pageSize earlier).2
    with h | ⟨_, _, _, _, h⟩ <;> rw [h] <;> simp

theorem GET_not_cached_of_absent (env : GetEnv) (db : TxDb) (cache : List (String × CacheEntry))
    (uid : String) (q : Query)
    (h1 : cacheGet cache (cacheKey env uid q (orString q.sortBy "transactionDate")
        (orString q.sortOrder "desc") (env.parseInt (orString q.page "1"))
        (env.parseInt (orString q.pageSize "10"))) = none)
    (h2 : cacheGet cache (recentCacheKey uid) = none) (data : GetResult) :
    (GET env db cache { session := some uid, query := q }).outcome ≠ .cached data := by
  have f1 : freshEntry env cache (cacheKey env uid q (orString q.sortBy "transactionDate")
        (orString q.sortOrder "desc") (env.parseInt (orString q.page "1"))
        (env.parseInt (orString q.pageSize "10"))) = none := by
    simp [freshEntry, h1]
  have f2 : freshEntry env cache (recentCacheKey uid) = none := by
    simp [freshEntry, h2]
  unfold GET
  simp only [f1, f2]
  split
  · split
    · simp
    · exact mainPath_not_cached _ _ _ _ _ _ _ _ _ _ _
  · exact mainPath_not_cached _ _ _ _ _ _ _ _ _ _ _

/-! ## Cache invalidation -/

/-- C13 at a failing input: user `a"b` lists their SELL rows (the listing is
cached under a `JSON.stringify` key, which holds the id as `a\"b`) and their
recent transactions (cached under `recent_a"b_10`), then creates a transaction
(201). The `recent_` entry is deleted, the filter-keyed entry is not, and the
same SELL listing is served from the cache. -/
theorem POST_keeps_cache_of_quoted_user :
    quoteCache.length = 2
      ∧ cacheGet quoteCache (recentCacheKey quoteUid) ≠ none
      ∧ (POST calmEnv sampleEngine quoteWorld
          { session := some quoteUid, body := some (body1 "BUY") }).outcome.status = some 201
      ∧ (POST calmEnv sampleEngine quoteWorld
          { session := some quoteUid, body := some (body1 "BUY") }).world.cache.length = 1
      ∧ cacheGet (POST calmEnv sampleEngine quoteWorld
          { session := some quoteUid, body := some (body1 "BUY") }).world.cache
          (recentCacheKey quoteUid) = none
      ∧ (GET sampleGetEnv (listDb [])
          (POST calmEnv sampleEngine quoteWorld
            { session := some quoteUid, body := some (body1 "BUY") }).world.cache
          { session := some quoteUid, query := sellQuery }).outcome.servedFromCache = true := by
  decide!

/-- After a POST answered 201 for user `uid` the cache has no `recent_` entry of
`uid`, whatever the id; when no character of the id is one that
`JSON.stringify` escapes (double quote, backslash, control characters), it has
no entry under a filter key of `uid` either, and no GET of `uid` is then served
from the cache. -/
theorem POST_created_clears_plain_user_cache {L : Type} (env : Env) (engine : Engine L)
    (w : World L CacheEntry) (req : Request) (uid : String)
    (hs : req.session = some uid)
    (h201 : (POST env engine w req).outcome.status = some 201) :
    cacheGet (POST env engine w req).world.cache (recentCacheKey uid) = none
      ∧ ((∀ c ∈ uid.toList, jsonEscape c = [c]) →
          (∀ (genv : GetEnv) (q : Query) (sortBy sortOrder : String)
              (page pageSize : Option Int),
              cacheGet (POST env engine w req).world.cache
                (cacheKey genv uid q sortBy sortOrder page pageSize) = none)
            ∧ ∀ (genv : GetEnv) (db : TxDb) (q : Query),
                (GET genv db (POST env engine w req).world.cache
                  { session := some uid, query := q }).outcome.servedFromCache = false) := by
  have hc := POST_created_cache env engine w req uid hs h201
  have h2 : cacheGet (POST env engine w req).world.cache (recentCacheKey uid) = none :=
    cacheGet_none_of_excluded _ uid _ hc (recentCacheKey_includes uid)
  refine ⟨h2, fun hplain => ?_⟩
  have h1 : ∀ (genv : GetEnv) (q : Query) (sortBy sortOrder : String)
      (page pageSize : Option Int),
      cacheGet (POST env engine w req).world.cache
        (cacheKey genv uid q sortBy sortOrder page pageSize) = none :=
    fun genv q sortBy sortOrder page pageSize =>
      cacheGet_none_of_excluded _ uid _ hc
        (cacheKey_includes genv uid q sortBy sortOrder page pageSize hplain)
  refine ⟨h1, fun genv db q => ?_⟩
  have hn := GET_not_cached_of_absent genv db _ uid q (h1 _ _ _ _ _ _) h2
  cases ho : (GET genv db (POST env engine w req).world.cache
      { session := some uid, query := q }).outcome with
  | cached data => exact absurd ho (hn data)
  | unauthorized => rfl
  | fresh data => rfl
  | failed => rfl

/-- User `u1` has two cached listings (a filter key and the `recent_` key);
after their BUY is answered 201 the cache is empty. -/
theorem POST_created_clears_u1_cache :
    u1Cache.length = 2
      ∧ (POST calmEnv sampleEngine world4 (req1 (body1 "BUY"))).outcome.status = some 201
      ∧ (POST calmEnv sampleEngine world4 (req1 (body1 "BUY"))).world.cache = [] := by
  decide!

/-! ## The listing's queries and statistics -/

theorem GET_queries (env : GetEnv) (db : TxDb) (cache : List (String × CacheEntry))
    (req : GetRequest) (args : FindManyArgs) (h : args ∈ (GET env db cache req).queries) :
    ∃ uid, req.session = some uid
      ∧ ((isCommonRequest req.query (orString req.query.sortBy "transactionDate")
             (orString req.query.sortOrder "desc") (env.parseInt (orString req.query.page "1"))
             (env.parseInt (orString req.query.pageSize "10")) = true
           ∧ args = recentArgs uid (env.parseInt (orString req.query.pageSize "10")))
         ∨ args = mainArgs env uid req.query (orString req.query.sortBy "transactionDate")
             (orString req.query.sortOrder "desc") (env.parseInt (orString req.query.page "1"))
             (env.parseInt (orString req.query.pageSize "10"))) := by
  unfold GET at h
  cases hs : req.session with
  | none => simp [hs] at h
  | some uid =>
    refine ⟨uid, rfl, ?_⟩
    simp only [hs] at h
    split at h
    · simp at h
    · split at h
      · rename_i hcommon
        split at h
        · simp at h
        · split at h
          · simp only [List.mem_singleton] at h
            exact Or.inl ⟨hcommon, h⟩
          · rw [(mainPath_cases _ _ _ _ _ _ _ _ _ _).1] at h
            simp only [List.mem_append, List.mem_singleton] at h
            rcases h with h | h
            · exact Or.inl ⟨hcommon, h⟩
            · exact Or.inr h
      · rw [(mainPath_cases _ _ _ _ _ _ _ _ _ _).1] at h
        simp only [List.append_nil, List.nil_append, List.mem_singleton] at h
        exact Or.inr h

/-- C16: in every `findMany` call a GET issues, the first key of `orderBy` is a
field of `validSortFields`; and when `sortBy` (the parameter, or
`'transactionDate'` when it is absent or empty) is not in that list, the first
key is `transactionDate` descending. -/
theorem GET_primary_sort_valid (env : GetEnv) (db : TxDb) (cache : List (String × CacheEntry))
    (req : GetRequest) (args : FindManyArgs) (h : args ∈ (GET env db cache req).queries) :
    ∃ field direction, args.orderBy.keys.head? = some (field, direction)
      ∧ field ∈ validSortFields
      ∧ (orString req.query.sortBy "transactionDate" ∉ validSortFields →
          field = "transactionDate" ∧ direction = "desc") := by
  obtain ⟨uid, -, hargs⟩ := GET_queries env db cache req args h
  rcases hargs with ⟨hcommon, rfl⟩ | rfl
  · refine ⟨"transactionDate", "desc", rfl, by decide, fun _ => ⟨rfl, rfl⟩⟩
  · by_cases hv : orString req.query.sortBy "transactionDate" ∈ validSortFields
    · have hc : validSortFields.contains (orString req.query.sortBy "transactionDate") = true := by
        simpa using hv
      refine ⟨orString req.query.sortBy "transactionDate",
        env.lower (orString req.query.sortOrder "desc"), ?_, hv, fun hn => absurd hv hn⟩
      unfold mainArgs buildOrderBy
      simp only [hc, if_true]
      split <;> rfl
    · have hc : validSortFields.contains (orString req.query.sortBy "transactionDate") = false := by
        simpa using hv
      refine ⟨"transactionDate", "desc", ?_, by decide, fun _ => ⟨rfl, rfl⟩⟩
      unfold mainArgs buildOrderBy
      simp only [hc]
      split <;> rfl

/-- C16 at a concrete request: `sortBy=bogus&sortOrder=asc` is sorted by
`transactionDate` descending. -/
theorem GET_primary_sort_valid_witness :
    ∃ field direction,
      (mainArgs sampleGetEnv "u1" { emptyQuery with sortBy := some "bogus", sortOrder := some "asc" }
        "bogus" "asc" (some 1) (some 10)).orderBy.keys.head? = some (field, direction)
      ∧ field ∈ validSortFields
      ∧ (orString ({ emptyQuery with sortBy := some "bogus", sortOrder := some "asc" } : Query).sortBy
            "transactionDate" ∉ validSortFields →
          field = "transactionDate" ∧ direction = "desc") :=
  GET_primary_sort_valid sampleGetEnv (listDb elevenSells) []
    { session := some "u1"
      query := { emptyQuery with sortBy := some "bogus", sortOrder := some "asc" } }
    (mainArgs sampleGetEnv "u1" { emptyQuery with sortBy := some "bogus", sortOrder := some "asc" }
      "bogus" "asc" (some 1) (some 10))
    (by decide!)

/-- C17 at a failing input: for `sortBy=id` the only `findMany` call is ordered
by `transactionDate` descending alone, with no `id` key; for `sortBy=price` the
same code appends `id` descending. -/
theorem GET_sortBy_id_has_no_tiebreak :
    (GET sampleGetEnv (listDb elevenSells) []
        { session := some "u1", query := { emptyQuery with sortBy := some "id" } }).queries.map
          (fun args => args.orderBy)
        = [.object "transactionDate" "desc"]
      ∧ (GET sampleGetEnv (listDb elevenSells) []
        { session := some "u1", query := { emptyQuery with sortBy := some "id" } }).queries.map
          (fun args => args.orderBy.keys.getLast?)
        = [some ("transactionDate", "desc")]
      ∧ (GET sampleGetEnv (listDb elevenSells) []
        { session := some "u1", query := { emptyQuery with sortBy := some "price" } }).queries.map
          (fun args => args.orderBy.keys)
        = [[("price", "desc"), ("id", "desc")]] := by
  decide!

theorem GET_cases (env : GetEnv) (db : TxDb) (cache : List (String × CacheEntry))
    (req : GetRequest) (uid : String) (hs : req.session = some uid) :
    ((GET env db cache req).outcome.servedFromCache = true ∧ (GET env db cache req).queries = [])
      ∨ (∃ result, recentPath env db uid req.query (env.parseInt (orString req.query.page "1"))
              (env.parseInt (orString req.query.pageSize "10")) = some result
            ∧ (GET env db cache req).outcome = .fresh result
            ∧ (GET env db cache req).queries
                = [recentArgs uid (env.parseInt (orString req.query.pageSize "10"))])
      ∨ ∃ earlier, GET env db cache req
          = mainPath env db cache uid req.query (orString req.query.sortBy "transactionDate")
              (orString req.query.sortOrder "desc") (env.parseInt (orString req.query.page "1"))
              (env.parseInt (orString req.query.pageSize "10")) earlier := by
  unfold GET
  simp only [hs]
  split
  · exact Or.inl ⟨rfl, rfl⟩
  · split
    · split
      · exact Or.inl ⟨rfl, rfl⟩
      · split
        · rename_i result hr
          exact Or.inr (Or.inl ⟨result, hr, rfl, rfl⟩)
        · exact Or.inr (Or.inr ⟨_, rfl⟩)
    · exact Or.inr (Or.inr ⟨_, rfl⟩)

theorem recentPath_some {env : GetEnv} {db : TxDb} {uid : String} {q : Query}
    {page pageSize : Option Int} {result : GetResult}
    (h : recentPath env db uid q page pageSize = some result) :
    db.findMany (recentArgs uid pageSize) = some result.transactions
      ∧ db.count (recentArgs uid pageSize).whereClause = some result.totalCount
      ∧ result.profitStats = calculateProfitStats result.transactions
          (getAccountFeesTotal env db uid q.stockAccountId q.dateFrom q.dateTo).1 := by
  unfold recentPath at h
  rcases hf : db.findMany (recentArgs uid pageSize) with _ | transactions
  · simp [hf] at h
  · by_cases hj : db.joinsFail = true
    · simp [hf, hj] at h
    · rcases hc : db.count (recentArgs uid pageSize).whereClause with _ | totalCount
      · simp [hf, hj, hc] at h
      · simp only [hf, hj, hc, Bool.false_eq_true, if_false, Option.some.injEq] at h
        subst h
        exact ⟨rfl, rfl, rfl⟩

/-- C14 at a failing input: user `u1` has eleven SELL rows, each with a profit
of 5, and no account fees; the first page of their SELL rows (page size 10)
is not served from the cache and reports `totalCount = 11` but statistics over
the ten rows returned (10 transactions, total 50), while `calculateProfitStats`
on the eleven matching rows gives 11 transactions and a total of 55. -/
theorem GET_profitStats_cover_page_only :
    (GET sampleGetEnv (listDb elevenSells) []
        { session := some "u1", query := sellQuery }).outcome.servedFromCache = false
      ∧ (GET sampleGetEnv (listDb elevenSells) []
          { session := some "u1", query := sellQuery }).outcome.body.map
            (fun d => (d.totalCount, d.transactions.length, d.profitStats.totalTransactions,
              d.profitStats.totalProfitLoss))
          = some (11, 10, 10, 50)
      ∧ elevenSells.countP (fun r => r.userId = "u1" ∧ r.type = "SELL") = 11
      ∧ (getAccountFeesTotal sampleGetEnv (listDb elevenSells) "u1" none none none).1 = 0
      ∧ (calculateProfitStats elevenSells 0).totalTransactions = 11
      ∧ (calculateProfitStats elevenSells 0).totalProfitLoss = 55 := by
  decide!

/-- What a GET that computes its listing returns: `profitStats` is
`calculateProfitStats` applied to the transactions of that response (the page
`findMany` gave for the request's filters, sort, `skip` and `take`, while
`totalCount` counts the same filters without paging) together with the
account-fee total for the request's `stockAccountId`, `dateFrom` and
`dateTo`. -/
theorem GET_fresh_profitStats (env : GetEnv) (db : TxDb) (cache : List (String × CacheEntry))
    (req : GetRequest) (data : GetResult)
    (h : (GET env db cache req).outcome = .fresh data) :
    ∃ uid args, req.session = some uid
      ∧ args ∈ (GET env db cache req).queries
      ∧ db.findMany args = some data.transactions
      ∧ db.count args.whereClause = some data.totalCount
      ∧ data.profitStats = calculateProfitStats data.transactions
          (getAccountFeesTotal env db uid req.query.stockAccountId req.query.dateFrom
            req.query.dateTo).1 := by
  cases hs : req.session with
  | none => simp [GET, hs] at h
  | some uid =>
    have hmain : ∀ earlier,
        (mainPath env db cache uid req.query (orString req.query.sortBy "transactionDate")
          (orString req.query.sortOrder "desc") (env.parseInt (orString req.query.page "1"))
          (env.parseInt (orString req.query.pageSize "10")) earlier).outcome = .fresh data →
        ∃ args, args ∈ (mainPath env db cache uid req.query
              (orString req.query.sortBy "transactionDate")
              (orString req.query.sortOrder "desc") (env.parseInt (orString req.query.page "1"))
              (env.parseInt (orString req.query.pageSize "10")) earlier).queries
          ∧ db.findMany args = some data.transactions
          ∧ db.count args.whereClause = some data.totalCount
          ∧ data.profitStats = calculateProfitStats data.transactions
              (getAccountFeesTotal env db uid req.query.stockAccountId req.query.dateFrom
                req.query.dateTo).1 := by
      intro earlier hm
      obtain ⟨hq, hcase⟩ := mainPath_cases env db cache uid req.query
        (orString req.query.sortBy "transactionDate") (orString req.query.sortOrder "desc")
        (env.parseInt (orString req.query.page "1"))
        (env.parseInt (orString req.query.pageSize "10")) earlier
      rcases hcase with hfail | ⟨totalCount, transactions, hc, hf, hout⟩
      · rw [hfail] at hm
        exact absurd hm (by simp)
      · rw [hout] at hm
        simp only [GetOutcome.fresh.injEq] at hm
        subst hm
        exact ⟨_, by rw [hq]; simp, hf, hc, rfl⟩
    rcases GET_cases env db cache req uid hs with ⟨hc, -⟩ | ⟨result, hr, ho, hq⟩ | ⟨earlier, hg⟩
    · rw [h] at hc
      exact absurd hc (by simp [GetOutcome.servedFromCache])
    · rw [ho] at h
      simp only [GetOutcome.fresh.injEq] at h
      subst h
      obtain ⟨h1, h2, h3⟩ := recentPath_some hr
      exact ⟨uid, _, rfl, by rw [hq]; simp, h1, h2, h3⟩
    · rw [hg] at h ⊢
      obtain ⟨args, ha, h1, h2, h3⟩ := hmain earlier h
      exact ⟨uid, args, rfl, ha, h1, h2, h3⟩

/-! ## Totals of the profit statistics -/

theorem sum_pl_split (l : List Tx) :
    (l.map (fun tx => tx.pl)).sum
      = ((l.filter (fun tx => tx.pl > 0)).map (fun tx => tx.pl)).sum
        + ((l.filter (fun tx => tx.pl < 0)).map (fun tx => tx.pl)).sum := by
  induction l with
  | nil => simp
  | cons x xs ih =>
    simp only [gt_iff_lt] at ih ⊢
    rcases lt_trichotomy x.pl 0 with h | h | h
    · have h1 : ¬ 0 < x.pl := not_lt.mpr h.le
      simp [List.filter_cons, h, h1, ih]
      ring
    · have h1 : ¬ 0 < x.pl := by rw [h]; exact lt_irrefl _
      have h2 : ¬ x.pl < 0 := by rw [h]; exact lt_irrefl _
      simp [List.filter_cons, h1, h2, ih, h]
    · have h1 : ¬ x.pl < 0 := not_lt.mpr h.le
      simp [List.filter_cons, h, h1, ih]
      ring

theorem sum_pl_int (l : List Tx) (h : ∀ tx ∈ l, ∃ n : ℤ, tx.pl = n) :
    ∃ m : ℤ, (l.map (fun tx => tx.pl)).sum = m := by
  induction l with
  | nil => exact ⟨0, by simp⟩
  | cons x xs ih =>
    obtain ⟨n, hn⟩ := h x (List.mem_cons_self _ _)
    obtain ⟨m, hm⟩ := ih (fun tx htx => h tx (List.mem_cons_of_mem _ htx))
    exact ⟨n + m, by simp [hn, hm]⟩

theorem sum_pl_nonneg (l : List Tx) (h : ∀ tx ∈ l, 0 ≤ tx.pl) :
    0 ≤ (l.map (fun tx => tx.pl)).sum := by
  induction l with
  | nil => simp
  | cons x xs ih =>
    have hx := h x (List.mem_cons_self _ _)
    have hxs := ih (fun tx htx => h tx (List.mem_cons_of_mem _ htx))
    simp only [List.map_cons, List.sum_cons]
    linarith

theorem sum_pl_nonpos (l : List Tx) (h : ∀ tx ∈ l, tx.pl ≤ 0) :
    (l.map (fun tx => tx.pl)).sum ≤ 0 := by
  induction l with
  | nil => simp
  | cons x xs ih =>
    have hx := h x (List.mem_cons_self _ _)
    have hxs := ih (fun tx htx => h tx (List.mem_cons_of_mem _ htx))
    simp only [List.map_cons, List.sum_cons]
    linarith

theorem sum_abs_pl_nonneg (l : List Tx) : 0 ≤ (l.map (fun tx => |tx.pl|)).sum := by
  induction l with
  | nil => simp
  | cons x xs ih =>
    simp only [List.map_cons, List.sum_cons]
    have := abs_nonneg x.pl
    linarith

theorem sum_abs_pl_filter_le (l : List Tx) (p : Tx → Bool) :
    ((l.filter p).map (fun tx => |tx.pl|)).sum ≤ (l.map (fun tx => |tx.pl|)).sum := by
  induction l with
  | nil => simp
  | cons x xs ih =>
    have := abs_nonneg x.pl
    by_cases hp : p x = true
    · rw [List.filter_cons_of_pos hp]
      simp only [List.map_cons, List.sum_cons]
      linarith
    · rw [List.filter_cons_of_neg hp]
      simp only [List.map_cons, List.sum_cons]
      linarith

theorem abs_sum_pl_le (l : List Tx) :
    |(l.map (fun tx => tx.pl)).sum| ≤ (l.map (fun tx => |tx.pl|)).sum := by
  induction l with
  | nil => simp
  | cons x xs ih =>
    simp only [List.map_cons, List.sum_cons]
    have := abs_add x.pl (xs.map (fun tx => tx.pl)).sum
    linarith

theorem foldl_fadd_pl (l : List Tx) (hint : ∀ tx ∈ l, ∃ z : ℤ, tx.pl = z) :
    ∀ a : ℤ, |(a : ℚ)| + (l.map (fun tx => |tx.pl|)).sum ≤ 2 ^ 53 →
      l.foldl (fun sum tx => fadd sum tx.pl) (a : ℚ) = a + (l.map (fun tx => tx.pl)).sum := by
  induction l with
  | nil => intro a _; simp
  | cons x xs ih =>
    intro a hb
    obtain ⟨z, hz⟩ := hint x (List.mem_cons_self _ _)
    have hxs := sum_abs_pl_nonneg xs
    simp only [List.map_cons, List.sum_cons] at hb ⊢
    have habs := abs_add (a : ℚ) x.pl
    have hbound : |((a + z : ℤ) : ℚ)| ≤ 2 ^ 53 := by
      push_cast
      rw [← hz]
      linarith
    have hstep : fadd (a : ℚ) x.pl = ((a + z : ℤ) : ℚ) := by
      unfold fadd
      rw [hz, ← Int.cast_add]
      exact toDouble_intCast _ (by exact_mod_cast hbound)
    have hb2 : |((a + z : ℤ) : ℚ)| + (xs.map (fun tx => |tx.pl|)).sum ≤ 2 ^ 53 := by
      push_cast
      rw [← hz]
      linarith
    rw [List.foldl_cons, hstep,
      ih (fun tx htx => hint tx (List.mem_cons_of_mem _ htx)) (a + z) hb2]
    push_cast
    rw [hz]
    ring

theorem foldl_fadd_pl_zero (l : List Tx) (hint : ∀ tx ∈ l, ∃ z : ℤ, tx.pl = z)
    (hb : (l.map (fun tx => |tx.pl|)).sum ≤ 2 ^ 53) :
    l.foldl (fun sum tx => fadd sum tx.pl) 0 = (l.map (fun tx => tx.pl)).sum := by
  have := foldl_fadd_pl l hint 0 (by simpa using hb)
  simpa using this

/-- C21, as stated, fails: the SELL rows of `bigSells` hold the integers
`2 ^ 53`, `-2 ^ 53` and 1 and the fee total is 0. The sum of all three is 1,
but the sum of the two gains is `2 ^ 53 + 1`, which no double holds: it comes
out as `2 ^ 53`, so `totalProfit + totalLoss - accountFeesTotal` is 0 while
`totalProfitLoss` is 1. -/
theorem calculateProfitStats_totals_identity_fails_large :
    (calculateProfitStats bigSells 0).totalProfit = 9007199254740992
      ∧ (calculateProfitStats bigSells 0).totalLoss = -9007199254740992
      ∧ (calculateProfitStats bigSells 0).accountFeesTotal = 0
      ∧ (calculateProfitStats bigSells 0).totalProfitLoss = 1
      ∧ (calculateProfitStats bigSells 0).totalProfitLoss
          ≠ (calculateProfitStats bigSells 0).totalProfit
              + (calculateProfitStats bigSells 0).totalLoss
              - (calculateProfitStats bigSells 0).accountFeesTotal
      ∧ fadd 9007199254740992 1 = 9007199254740992 := by
  decide!

/-- C21, amended: when the `calculatedPl` of every SELL row is an integer (or
null), the fee total is an integer, and the absolute values of these numbers
add up to at most `2 ^ 53` (so that every sum the function forms is held
exactly by a double), the values `calculateProfitStats` returns satisfy
`totalProfitLoss = totalProfit + totalLoss - accountFeesTotal`, with
`totalProfit` at least 0 and `totalLoss` at most 0. -/
theorem calculateProfitStats_totals_identity (L : List Tx) (f : ℚ)
    (hpl : ∀ tx ∈ L, tx.type = "SELL" → ∀ v, tx.calculatedPl = some v → ∃ n : ℤ, v = n)
    (hf : ∃ k : ℤ, f = k)
    (hsize : ((L.filter (fun tx => tx.type = "SELL")).map (fun tx => |tx.pl|)).sum + |f|
      ≤ 2 ^ 53) :
    (calculateProfitStats L f).totalProfitLoss
        = (calculateProfitStats L f).totalProfit + (calculateProfitStats L f).totalLoss
          - (calculateProfitStats L f).accountFeesTotal
      ∧ 0 ≤ (calculateProfitStats L f).totalProfit
      ∧ (calculateProfitStats L f).totalLoss ≤ 0 := by
  obtain ⟨k, rfl⟩ := hf
  by_cases hne : (L.filter (fun tx => tx.type = "SELL")).length = 0
  · simp [calculateProfitStats, hne]
  · have hint : ∀ tx ∈ L.filter (fun tx => tx.type = "SELL"), ∃ n : ℤ, tx.pl = n := by
      intro tx htx
      rw [List.mem_filter] at htx
      have ht : tx.type = "SELL" := by simpa using htx.2
      cases hv : tx.calculatedPl with
      | none => exact ⟨0, by simp [Tx.pl, hv]⟩
      | some v =>
        obtain ⟨n, hn⟩ := hpl tx htx.1 ht v hv
        exact ⟨n, by simp [Tx.pl, hv, hn]⟩
    have hk0 := abs_nonneg (k : ℚ)
    have hall := sum_abs_pl_nonneg (L.filter (fun tx => tx.type = "SELL"))
    have hG := foldl_fadd_pl_zero (L.filter (fun tx => tx.type = "SELL")) hint (by linarith)
    have hP := foldl_fadd_pl_zero
      ((L.filter (fun tx => tx.type = "SELL")).filter (fun tx => tx.pl > 0))
      (fun tx htx => hint tx (List.mem_of_mem_filter htx))
      (by
        have := sum_abs_pl_filter_le (L.filter (fun tx => tx.type = "SELL"))
          (fun tx => tx.pl > 0)
        linarith)
    have hN := foldl_fadd_pl_zero
      ((L.filter (fun tx => tx.type = "SELL")).filter (fun tx => tx.pl < 0))
      (fun tx htx => hint tx (List.mem_of_mem_filter htx))
      (by
        have := sum_abs_pl_filter_le (L.filter (fun tx => tx.type = "SELL"))
          (fun tx => tx.pl < 0)
        linarith)
    obtain ⟨p, hp⟩ := sum_pl_int ((L.filter (fun tx => tx.type = "SELL")).filter
      (fun tx => tx.pl > 0)) (fun tx htx => hint tx (List.mem_of_mem_filter htx))
    obtain ⟨n, hn⟩ := sum_pl_int ((L.filter (fun tx => tx.type = "SELL")).filter
      (fun tx => tx.pl < 0)) (fun tx htx => hint tx (List.mem_of_mem_filter htx))
    have hsplit := sum_pl_split (L.filter (fun tx => tx.type = "SELL"))
    have hp0 : (0 : ℚ) ≤ p := by
      rw [← hp]
      exact sum_pl_nonneg _ (fun tx htx => by
        have := (List.mem_filter.mp htx).2
        simp only [gt_iff_lt, decide_eq_true_eq] at this
        exact this.le)
    have hn0 : (n : ℚ) ≤ 0 := by
      rw [← hn]
      exact sum_pl_nonpos _ (fun tx htx => by
        have := (List.mem_filter.mp htx).2
        simp only [decide_eq_true_eq] at this
        exact this.le)
    have hsum := abs_sum_pl_le (L.filter (fun tx => tx.type = "SELL"))
    rw [hsplit, hp, hn] at hsum hG
    rw [hp] at hP
    rw [hn] at hN
    have hsub : fsub ((p : ℚ) + n) k = ((p + n - k : ℤ) : ℚ) := by
      unfold fsub
      rw [show ((p : ℚ) + n - k) = ((p + n - k : ℤ) : ℚ) by push_cast; ring]
      apply toDouble_intCast
      have h1 : |((p + n - k : ℤ) : ℚ)| ≤ 2 ^ 53 := by
        push_cast
        have := abs_sub ((p : ℚ) + n) k
        linarith
      exact_mod_cast h1
    simp only [calculateProfitStats, hne, if_false, List.foldl_map, hG, hP, hN, hsub]
    rw [mathRound_intCast, mathRound_intCast, mathRound_intCast, mathRound_intCast]
    refine ⟨by push_cast; ring, hp0, hn0⟩

/-- C21 at a concrete list: the SELL rows of `txs1` hold 5, null and -1, the
fee total is 2, and `2 = 5 + (-1) - 2`. -/
theorem calculateProfitStats_totals_identity_witness :
    ((calculateProfitStats txs1 2).totalProfitLoss
        = (calculateProfitStats txs1 2).totalProfit + (calculateProfitStats txs1 2).totalLoss
          - (calculateProfitStats txs1 2).accountFeesTotal
      ∧ 0 ≤ (calculateProfitStats txs1 2).totalProfit
      ∧ (calculateProfitStats txs1 2).totalLoss ≤ 0)
      ∧ (calculateProfitStats txs1 2).totalProfitLoss = 2
      ∧ (calculateProfitStats txs1 2).totalProfit = 5
      ∧ (calculateProfitStats txs1 2).totalLoss = -1
      ∧ (calculateProfitStats txs1 2).accountFeesTotal = 2 :=
  ⟨calculateProfitStats_totals_identity txs1 2
      (by
        intro t ht _ v hv
        simp only [txs1, List.mem_cons, List.mem_singleton, List.not_mem_nil, or_false] at ht
        rcases ht with rfl | rfl | rfl | rfl <;> simp [tx] at hv
        · exact ⟨5, by rw [← hv]; norm_num⟩
        · exact ⟨9, by rw [← hv]; norm_num⟩
        · exact ⟨-1, by rw [← hv]; norm_num⟩)
      ⟨2, by norm_num⟩
      (by decide!),
    by decide!, by decide!, by decide!, by decide!⟩

end TradingJournal
